import Mathlib

/-!
# Cell topology of ITK: the hexahedron and the line cell

A shallow embedding of `Code/Common/itkHexahedronCell.cxx` and
`Code/Common/itkLineCell.cxx`, and of the cost function of
`Testing/Code/Numerics/itkLevenbergMarquardtOptimizerTest.cxx`.

* A cell is its member array `m_PointIds`, kept as a list of point identifiers.
* Every C array access goes through `readAt` / `writeAt`, which answer `none`
  when the index is outside the array: `none` stands for the undefined
  behaviour of the C++ program, `some` for a defined execution.
* A counted `for` loop is `forLoop`; the pointer loop of
  `SetCellPoints(first, last)` is `copyRange`.
* A smart pointer that may be `NULL` is `CellPointer`.
* `Heap` holds the cells as objects at addresses, to tell a parent cell from
  the sub-cells extracted from it; `Call` and `Heap.exec` list every member
  function.
* `Outcome` separates a returned value, undefined behaviour and an error.
* `CostFunction` is the cost function of the optimizer test, over the
  rationals.
-/

namespace ITK

/-! ## Scalar types -/

/-- Modelled from the spec: the `PointIdentifier` typedef of the absent cell
headers, "an opaque integer-like key" that the cell only copies. -/
abbrev PointIdentifier := Nat

/-- Modelled from the spec: the `CellFeatureIdentifier` typedef of the absent
cell headers, an "integer index" enumerating boundary features. -/
abbrev CellFeatureIdentifier := Nat

/-- Modelled from the spec: the `CellFeatureCount` typedef of the absent cell
headers, an "integer count" of boundary features. -/
abbrev CellFeatureCount := Nat

/-! ## Arrays and loops of the C++ program -/

/-- The read `xs[i]` of a C array at an `int` index; `none` when `i` is
negative or past the end. -/
def readAt {α : Type} (xs : List α) (i : Int) : Option α :=
  if 0 ≤ i then xs[i.toNat]? else none

/-- The write `xs[i] = v` of a C array at an `int` index; `none` when `i` is
negative or past the end, and the array with slot `i` replaced otherwise. -/
def writeAt {α : Type} (xs : List α) (i : Int) (v : α) : Option (List α) :=
  if 0 ≤ i ∧ i.toNat < xs.length then some (xs.set i.toNat v) else none

/-- The loop `for(int i = i0; i < i0 + count; ++i) body`, threading the state
`s` through the body; the loop stops with `none` as soon as the body does. -/
def forLoop {σ : Type} (body : Int → σ → Option σ) : Nat → Int → σ → Option σ
  | 0, _, s => some s
  | count + 1, i, s => (body i s).bind (forLoop body count (i + 1))

/-! ## The sub-cell types -/

/-- Modelled from the spec: the vertex cell (`itkVertexCell`, not among the
sources): "Dimension 0, 1 point". -/
structure VertexCell where
  m_PointIds : List PointIdentifier
  deriving DecidableEq, Repr

/-- The line cell of `itkLineCell.cxx`: its `m_PointIds` array. -/
structure LineCell where
  m_PointIds : List PointIdentifier
  deriving DecidableEq, Repr

/-- Modelled from the spec: the face cell of a hexahedron
(`itkQuadrilateralCell`, not among the sources): a "4-point Face cell". -/
structure QuadrilateralCell where
  m_PointIds : List PointIdentifier
  deriving DecidableEq, Repr

/-- The hexahedron cell of `itkHexahedronCell.cxx`: its `m_PointIds` array. -/
structure HexahedronCell where
  m_PointIds : List PointIdentifier
  deriving DecidableEq, Repr

/-- A cell of any shape, as seen through `Cell::Pointer`. -/
inductive Cell where
  | vertex (c : VertexCell)
  | line (c : LineCell)
  | quadrilateral (c : QuadrilateralCell)
  | hexahedron (c : HexahedronCell)
  deriving DecidableEq, Repr

/-- The smart pointer `Cell::Pointer`: `NULL`, or a cell. -/
inductive CellPointer where
  | null
  | to (c : Cell)
  deriving DecidableEq, Repr

/-! ## Vertex cell -/

namespace VertexCell

/-- Modelled from the spec: `NumberOfPoints` of the vertex cell, "1 point". -/
def NumberOfPoints : Nat := 1

/-- Modelled from the spec: `Vertex::New()`. The C++ object starts with
indeterminate point identifiers; they are taken to be 0 here, and every
extraction below overwrites each of them before the cell is returned. -/
def New : VertexCell := ⟨List.replicate NumberOfPoints 0⟩

/-- Modelled from the spec: `Vertex::SetCellPoint`, "overwrites a single
slot", as the line and the hexahedron do it. -/
def SetCellPoint (self : VertexCell) (localId : Int) (ptId : PointIdentifier) :
    Option VertexCell :=
  (writeAt self.m_PointIds localId ptId).map VertexCell.mk

end VertexCell

/-! ## Quadrilateral cell -/

namespace QuadrilateralCell

/-- Modelled from the spec: `Face::NumberOfPoints`, a face has 4 points. -/
def NumberOfPoints : Nat := 4

/-- Modelled from the spec: `Face::New()`; indeterminate identifiers are
taken to be 0, and `GetCellFace` overwrites each of them. -/
def New : QuadrilateralCell := ⟨List.replicate NumberOfPoints 0⟩

/-- Modelled from the spec: `Face::SetCellPoint`, "overwrites a single
slot", as the line and the hexahedron do it. -/
def SetCellPoint (self : QuadrilateralCell) (localId : Int) (ptId : PointIdentifier) :
    Option QuadrilateralCell :=
  (writeAt self.m_PointIds localId ptId).map QuadrilateralCell.mk

end QuadrilateralCell

/-! ## Line cell (`itkLineCell.cxx`) -/

namespace LineCell

/-- Modelled from the spec: `CellDimension` of the line, from the absent
header: "Dimension 1". -/
def CellDimension : Int := 1

/-- Modelled from the spec: `NumberOfPoints` of the line, from the absent
header: "2 points". -/
def NumberOfPoints : Nat := 2

/-- `itkLineCell::New`. The C++ object starts with indeterminate point
identifiers; they are taken to be 0 here. -/
def New : LineCell := ⟨List.replicate NumberOfPoints 0⟩

/-- `itkLineCell::GetCellDimension`. -/
def GetCellDimension (_self : LineCell) : Int := CellDimension

/-- `itkLineCell::GetNumberOfVertices`. -/
def GetNumberOfVertices (_self : LineCell) : CellFeatureCount := NumberOfPoints

/-- `itkLineCell::GetNumberOfBoundaryFeatures`. -/
def GetNumberOfBoundaryFeatures (self : LineCell) (dimension : Int) : CellFeatureCount :=
  match dimension with
  | 0 => self.GetNumberOfVertices
  | _ => 0

/-- `itkLineCell::SetCellPoints(const PointIdentifier *ptList)`: the list
stands for the memory readable from `ptList`. -/
def SetCellPoints (self : LineCell) (ptList : List PointIdentifier) : Option LineCell :=
  (forLoop (fun i ids => (readAt ptList i).bind (writeAt ids i)) NumberOfPoints 0
    self.m_PointIds).map LineCell.mk

/-- `itkLineCell::SetCellPoint`. -/
def SetCellPoint (self : LineCell) (localId : Int) (ptId : PointIdentifier) :
    Option LineCell :=
  (writeAt self.m_PointIds localId ptId).map LineCell.mk

/-- `itkLineCell::GetCellVertex`. -/
def GetCellVertex (self : LineCell) (vertexId : CellFeatureIdentifier) :
    Option VertexCell :=
  (self.m_PointIds[vertexId]?).bind (VertexCell.New.SetCellPoint 0)

/-- `itkLineCell::GetBoundaryFeature`. -/
def GetBoundaryFeature (self : LineCell) (dimension : Int)
    (featureId : CellFeatureIdentifier) : Option CellPointer :=
  match dimension with
  | 0 => (self.GetCellVertex featureId).map (fun v => CellPointer.to (Cell.vertex v))
  | _ => some CellPointer.null

end LineCell

/-! ## Hexahedron cell (`itkHexahedronCell.cxx`) -/

namespace HexahedronCell

/-- Modelled from the spec: `CellDimension` of the hexahedron, from the
absent header: "Dimension 3". -/
def CellDimension : Int := 3

/-- Modelled from the spec: `NumberOfPoints` of the hexahedron, from the
absent header: "8 points". -/
def NumberOfPoints : Nat := 8

/-- Modelled from the spec: `NumberOfVertices` of the hexahedron, from the
absent header: one vertex for each of the 8 points. -/
def NumberOfVertices : CellFeatureCount := 8

/-- Modelled from the spec: `NumberOfEdges` of the hexahedron, from the
absent header: "12 edges". -/
def NumberOfEdges : CellFeatureCount := 12

/-- Modelled from the spec: `NumberOfFaces` of the hexahedron, from the
absent header: "6 faces". -/
def NumberOfFaces : CellFeatureCount := 6

/-- The table `m_Edges[12][2]`. -/
def m_Edges : List (List Int) :=
  [ [0,1], [1,2], [3,2], [0,3],
    [4,5], [5,6], [7,6], [4,7],
    [0,4], [1,5], [3,7], [2,6] ]

/-- The table `m_Faces[6][4]`. -/
def m_Faces : List (List Int) :=
  [ [0,4,7,3], [1,2,6,5],
    [0,1,5,4], [3,7,6,2],
    [0,3,2,1], [4,5,6,7] ]

/-- `itkHexahedronCell::New`. The C++ object starts with indeterminate point
identifiers; they are taken to be 0 here. -/
def New : HexahedronCell := ⟨List.replicate NumberOfPoints 0⟩

/-- `itkHexahedronCell::GetCellDimension`. -/
def GetCellDimension (_self : HexahedronCell) : Int := CellDimension

/-- `itkHexahedronCell::GetNumberOfVertices`. -/
def GetNumberOfVertices (_self : HexahedronCell) : CellFeatureCount := NumberOfVertices

/-- `itkHexahedronCell::GetNumberOfEdges`. -/
def GetNumberOfEdges (_self : HexahedronCell) : CellFeatureCount := NumberOfEdges

/-- `itkHexahedronCell::GetNumberOfFaces`. -/
def GetNumberOfFaces (_self : HexahedronCell) : CellFeatureCount := NumberOfFaces

/-- `itkHexahedronCell::GetNumberOfBoundaryFeatures`. -/
def GetNumberOfBoundaryFeatures (self : HexahedronCell) (dimension : Int) :
    CellFeatureCount :=
  match dimension with
  | 0 => self.GetNumberOfVertices
  | 1 => self.GetNumberOfEdges
  | 2 => self.GetNumberOfFaces
  | _ => 0

/-- `itkHexahedronCell::SetCellPoints(const PointIdentifier *ptList)`: the
list stands for the memory readable from `ptList`. -/
def SetCellPoints (self : HexahedronCell) (ptList : List PointIdentifier) :
    Option HexahedronCell :=
  (forLoop (fun i ids => (readAt ptList i).bind (writeAt ids i)) NumberOfPoints 0
    self.m_PointIds).map HexahedronCell.mk

/-- `itkHexahedronCell::SetCellPoint`. -/
def SetCellPoint (self : HexahedronCell) (localId : Int) (ptId : PointIdentifier) :
    Option HexahedronCell :=
  (writeAt self.m_PointIds localId ptId).map HexahedronCell.mk

/-- `itkHexahedronCell::GetCellVertex`. -/
def GetCellVertex (self : HexahedronCell) (vertexId : CellFeatureIdentifier) :
    Option VertexCell :=
  (self.m_PointIds[vertexId]?).bind (VertexCell.New.SetCellPoint 0)

/-- `itkHexahedronCell::GetCellEdge`: the loop body reads
`m_Edges[edgeId][i]`, then `m_PointIds` at that index, and stores the
identifier in slot `i` of the new edge. -/
def GetCellEdge (self : HexahedronCell) (edgeId : CellFeatureIdentifier) :
    Option LineCell :=
  forLoop
    (fun i edge =>
      (m_Edges[edgeId]?).bind fun row =>
      (readAt row i).bind fun k =>
      (readAt self.m_PointIds k).bind fun p =>
      edge.SetCellPoint i p)
    LineCell.NumberOfPoints 0 LineCell.New

/-- `itkHexahedronCell::GetCellFace`: the loop body reads
`m_Faces[faceId][i]`, then `m_PointIds` at that index, and stores the
identifier in slot `i` of the new face. -/
def GetCellFace (self : HexahedronCell) (faceId : CellFeatureIdentifier) :
    Option QuadrilateralCell :=
  forLoop
    (fun i face =>
      (m_Faces[faceId]?).bind fun row =>
      (readAt row i).bind fun k =>
      (readAt self.m_PointIds k).bind fun p =>
      face.SetCellPoint i p)
    QuadrilateralCell.NumberOfPoints 0 QuadrilateralCell.New

/-- `itkHexahedronCell::GetBoundaryFeature`. -/
def GetBoundaryFeature (self : HexahedronCell) (dimension : Int)
    (featureId : CellFeatureIdentifier) : Option CellPointer :=
  match dimension with
  | 0 => (self.GetCellVertex featureId).map (fun v => CellPointer.to (Cell.vertex v))
  | 1 => (self.GetCellEdge featureId).map (fun e => CellPointer.to (Cell.line e))
  | 2 => (self.GetCellFace featureId).map (fun f => CellPointer.to (Cell.quadrilateral f))
  | _ => some CellPointer.null

/-- The directed sides of a face entry read as a cyclic sequence: entry `i`
paired with entry `(i + 1) mod n`, for each position `i` of the entry. -/
def directedSides (row : List Int) : List (Int × Int) :=
  row.zip (row.rotate 1)

/-- The directed sides of all the faces of `m_Faces`, face after face. -/
def allDirectedSides : List (Int × Int) :=
  (m_Faces.map directedSides).flatten

end HexahedronCell

/-! ## The range overload of `SetCellPoints` -/

/-- The loop `while(ii != last) m_PointIds[localId++] = *ii++;` of
`SetCellPoints(first, last)`. The caller's memory is the list `mem`, and the
pointers `ii` and `last` are positions in it: position `p` can be read when
`p < mem.length`, and a read at any other position is `none`.

The first argument bounds the number of rounds. Each round that does not stop
the loop writes one more slot of `ids`, and a write past the last slot is
`none`, so `ids.length + 1` rounds always suffice (`copyRange_fuel`); with no
round left the loop can only be at its exit test. -/
def copyRange (mem : List PointIdentifier) (last : Nat) :
    Nat → Nat → Int → List PointIdentifier → Option (List PointIdentifier)
  | 0, ii, _, ids => if ii = last then some ids else none
  | fuel + 1, ii, localId, ids =>
    if ii = last then some ids
    else
      (mem[ii]?).bind fun v =>
      (writeAt ids localId v).bind fun ids1 =>
      copyRange mem last fuel (ii + 1) (localId + 1) ids1

/-- `itkLineCell::SetCellPoints(const PointIdentifier* first,
const PointIdentifier* last)`. -/
def LineCell.SetCellPointsRange (self : LineCell) (mem : List PointIdentifier)
    (first last : Nat) : Option LineCell :=
  (copyRange mem last (self.m_PointIds.length + 1) first 0 self.m_PointIds).map LineCell.mk

/-- `itkHexahedronCell::SetCellPoints(const PointIdentifier* first,
const PointIdentifier* last)`. -/
def HexahedronCell.SetCellPointsRange (self : HexahedronCell) (mem : List PointIdentifier)
    (first last : Nat) : Option HexahedronCell :=
  (copyRange mem last (self.m_PointIds.length + 1) first 0 self.m_PointIds).map
    HexahedronCell.mk

/-! ## Cells as objects on a heap

The functions above take the cell by value. To speak of a parent cell and of
the sub-cells extracted from it as distinct objects, the same member functions
are run here on a heap of objects: a pointer to a cell is the address of its
`m_PointIds` array. -/

/-- The heap: the object at address `p` is the `m_PointIds` array
`objects[p]`. -/
structure Heap where
  objects : List (List PointIdentifier)
  deriving DecidableEq, Repr

namespace Heap

/-- The allocation `new Self` of a cell with `n` slots: the new object takes
the next free address, which is returned with the heap. Its indeterminate
identifiers are taken to be 0, as in `New` above. -/
def alloc (h : Heap) (n : Nat) : Heap × Nat :=
  (⟨h.objects ++ [List.replicate n 0]⟩, h.objects.length)

/-- The read `p->m_PointIds[i]`; `none` when `p` is not an object or `i` is
out of bounds. -/
def load (h : Heap) (p : Nat) (i : Int) : Option PointIdentifier :=
  (h.objects[p]?).bind fun ids => readAt ids i

/-- A member function that accesses only the `m_PointIds` of its own object,
run on the object at address `p`: `f` is the function on the array. -/
def modify (h : Heap) (p : Nat)
    (f : List PointIdentifier → Option (List PointIdentifier)) : Option Heap :=
  (h.objects[p]?).bind fun ids => (f ids).map fun ids1 => ⟨h.objects.set p ids1⟩

/-- `Vertex::New()` on the heap. -/
def Vertex_New (h : Heap) : Heap × Nat := h.alloc VertexCell.NumberOfPoints

/-- `Edge::New()`, that is `itkLineCell::New`, on the heap. -/
def Line_New (h : Heap) : Heap × Nat := h.alloc LineCell.NumberOfPoints

/-- `Face::New()` on the heap. -/
def Quadrilateral_New (h : Heap) : Heap × Nat := h.alloc QuadrilateralCell.NumberOfPoints

/-- `itkHexahedronCell::New` on the heap. -/
def Hexahedron_New (h : Heap) : Heap × Nat := h.alloc HexahedronCell.NumberOfPoints

/-- `Vertex::SetCellPoint` on the object at `this`. -/
def Vertex_SetCellPoint (h : Heap) (this : Nat) (localId : Int) (ptId : PointIdentifier) :
    Option Heap :=
  h.modify this fun ids =>
    ((VertexCell.mk ids).SetCellPoint localId ptId).map VertexCell.m_PointIds

/-- `itkLineCell::SetCellPoint` on the object at `this`. -/
def Line_SetCellPoint (h : Heap) (this : Nat) (localId : Int) (ptId : PointIdentifier) :
    Option Heap :=
  h.modify this fun ids =>
    ((LineCell.mk ids).SetCellPoint localId ptId).map LineCell.m_PointIds

/-- `Face::SetCellPoint` on the object at `this`. -/
def Quadrilateral_SetCellPoint (h : Heap) (this : Nat) (localId : Int)
    (ptId : PointIdentifier) : Option Heap :=
  h.modify this fun ids =>
    ((QuadrilateralCell.mk ids).SetCellPoint localId ptId).map QuadrilateralCell.m_PointIds

/-- `itkHexahedronCell::SetCellPoint` on the object at `this`. -/
def Hexahedron_SetCellPoint (h : Heap) (this : Nat) (localId : Int)
    (ptId : PointIdentifier) : Option Heap :=
  h.modify this fun ids =>
    ((HexahedronCell.mk ids).SetCellPoint localId ptId).map HexahedronCell.m_PointIds

/-- `itkLineCell::SetCellPoints(ptList)` on the object at `this`. -/
def Line_SetCellPoints (h : Heap) (this : Nat) (ptList : List PointIdentifier) :
    Option Heap :=
  h.modify this fun ids =>
    ((LineCell.mk ids).SetCellPoints ptList).map LineCell.m_PointIds

/-- `itkHexahedronCell::SetCellPoints(ptList)` on the object at `this`. -/
def Hexahedron_SetCellPoints (h : Heap) (this : Nat) (ptList : List PointIdentifier) :
    Option Heap :=
  h.modify this fun ids =>
    ((HexahedronCell.mk ids).SetCellPoints ptList).map HexahedronCell.m_PointIds

/-- `itkLineCell::SetCellPoints(first, last)` on the object at `this`. -/
def Line_SetCellPointsRange (h : Heap) (this : Nat) (mem : List PointIdentifier)
    (first last : Nat) : Option Heap :=
  h.modify this fun ids =>
    ((LineCell.mk ids).SetCellPointsRange mem first last).map LineCell.m_PointIds

/-- `itkHexahedronCell::SetCellPoints(first, last)` on the object at `this`. -/
def Hexahedron_SetCellPointsRange (h : Heap) (this : Nat) (mem : List PointIdentifier)
    (first last : Nat) : Option Heap :=
  h.modify this fun ids =>
    ((HexahedronCell.mk ids).SetCellPointsRange mem first last).map HexahedronCell.m_PointIds

/-- `itkLineCell::GetCellVertex` on the object at `this`: the vertex is
allocated, then `m_PointIds[vertexId]` of `this` is read and stored in its
slot 0; the address of the vertex is returned. -/
def Line_GetCellVertex (h : Heap) (this : Nat) (vertexId : CellFeatureIdentifier) :
    Option (Heap × Nat) :=
  let a := h.Vertex_New
  ((a.1.load this (vertexId : Int)).bind fun p => a.1.Vertex_SetCellPoint a.2 0 p).map
    fun h1 => (h1, a.2)

/-- `itkHexahedronCell::GetCellVertex` on the object at `this`. -/
def Hexahedron_GetCellVertex (h : Heap) (this : Nat) (vertexId : CellFeatureIdentifier) :
    Option (Heap × Nat) :=
  let a := h.Vertex_New
  ((a.1.load this (vertexId : Int)).bind fun p => a.1.Vertex_SetCellPoint a.2 0 p).map
    fun h1 => (h1, a.2)

/-- `itkHexahedronCell::GetCellEdge` on the object at `this`: the edge is
allocated, and each round of the loop reads `m_PointIds` of `this` in the
current heap and stores the identifier in the edge. -/
def Hexahedron_GetCellEdge (h : Heap) (this : Nat) (edgeId : CellFeatureIdentifier) :
    Option (Heap × Nat) :=
  let a := h.Line_New
  (forLoop
    (fun i hp =>
      (HexahedronCell.m_Edges[edgeId]?).bind fun row =>
      (readAt row i).bind fun k =>
      (hp.load this k).bind fun p =>
      hp.Line_SetCellPoint a.2 i p)
    LineCell.NumberOfPoints 0 a.1).map fun h1 => (h1, a.2)

/-- `itkHexahedronCell::GetCellFace` on the object at `this`. -/
def Hexahedron_GetCellFace (h : Heap) (this : Nat) (faceId : CellFeatureIdentifier) :
    Option (Heap × Nat) :=
  let a := h.Quadrilateral_New
  (forLoop
    (fun i hp =>
      (HexahedronCell.m_Faces[faceId]?).bind fun row =>
      (readAt row i).bind fun k =>
      (hp.load this k).bind fun p =>
      hp.Quadrilateral_SetCellPoint a.2 i p)
    QuadrilateralCell.NumberOfPoints 0 a.1).map fun h1 => (h1, a.2)

/-- `itkLineCell::GetBoundaryFeature` on the object at `this`; the pointer
returned is an address, or `none` for `NULL`. -/
def Line_GetBoundaryFeature (h : Heap) (this : Nat) (dimension : Int)
    (featureId : CellFeatureIdentifier) : Option (Heap × Option Nat) :=
  match dimension with
  | 0 => (h.Line_GetCellVertex this featureId).map fun r => (r.1, some r.2)
  | _ => some (h, none)

/-- `itkHexahedronCell::GetBoundaryFeature` on the object at `this`; the
pointer returned is an address, or `none` for `NULL`. -/
def Hexahedron_GetBoundaryFeature (h : Heap) (this : Nat) (dimension : Int)
    (featureId : CellFeatureIdentifier) : Option (Heap × Option Nat) :=
  match dimension with
  | 0 => (h.Hexahedron_GetCellVertex this featureId).map fun r => (r.1, some r.2)
  | 1 => (h.Hexahedron_GetCellEdge this featureId).map fun r => (r.1, some r.2)
  | 2 => (h.Hexahedron_GetCellFace this featureId).map fun r => (r.1, some r.2)
  | _ => some (h, none)

end Heap

/-- A call of a member function of the line cell or of the hexahedron cell,
with its arguments; `this` is the address of the cell. -/
inductive Call where
  | Line_New
  | Line_GetCellDimension (this : Nat)
  | Line_GetNumberOfBoundaryFeatures (this : Nat) (dimension : Int)
  | Line_GetBoundaryFeature (this : Nat) (dimension : Int) (featureId : CellFeatureIdentifier)
  | Line_SetCellPoints (this : Nat) (ptList : List PointIdentifier)
  | Line_SetCellPointsRange (this : Nat) (mem : List PointIdentifier) (first last : Nat)
  | Line_SetCellPoint (this : Nat) (localId : Int) (ptId : PointIdentifier)
  | Line_GetNumberOfVertices (this : Nat)
  | Line_GetCellVertex (this : Nat) (vertexId : CellFeatureIdentifier)
  | Hexahedron_New
  | Hexahedron_GetCellDimension (this : Nat)
  | Hexahedron_GetNumberOfBoundaryFeatures (this : Nat) (dimension : Int)
  | Hexahedron_GetBoundaryFeature (this : Nat) (dimension : Int)
      (featureId : CellFeatureIdentifier)
  | Hexahedron_SetCellPoints (this : Nat) (ptList : List PointIdentifier)
  | Hexahedron_SetCellPointsRange (this : Nat) (mem : List PointIdentifier) (first last : Nat)
  | Hexahedron_SetCellPoint (this : Nat) (localId : Int) (ptId : PointIdentifier)
  | Hexahedron_GetNumberOfVertices (this : Nat)
  | Hexahedron_GetNumberOfEdges (this : Nat)
  | Hexahedron_GetNumberOfFaces (this : Nat)
  | Hexahedron_GetCellVertex (this : Nat) (vertexId : CellFeatureIdentifier)
  | Hexahedron_GetCellEdge (this : Nat) (edgeId : CellFeatureIdentifier)
  | Hexahedron_GetCellFace (this : Nat) (faceId : CellFeatureIdentifier)

/-- The heap after a call. The functions that only return a constant
(`GetCellDimension`, `GetNumberOfBoundaryFeatures`, `GetNumberOfVertices`,
`GetNumberOfEdges`, `GetNumberOfFaces`) access no object. -/
def Heap.exec (h : Heap) : Call → Option Heap
  | Call.Line_New => some h.Line_New.1
  | Call.Line_GetCellDimension _ => some h
  | Call.Line_GetNumberOfBoundaryFeatures _ _ => some h
  | Call.Line_GetBoundaryFeature this d k => (h.Line_GetBoundaryFeature this d k).map Prod.fst
  | Call.Line_SetCellPoints this ptList => h.Line_SetCellPoints this ptList
  | Call.Line_SetCellPointsRange this mem first last =>
    h.Line_SetCellPointsRange this mem first last
  | Call.Line_SetCellPoint this localId ptId => h.Line_SetCellPoint this localId ptId
  | Call.Line_GetNumberOfVertices _ => some h
  | Call.Line_GetCellVertex this k => (h.Line_GetCellVertex this k).map Prod.fst
  | Call.Hexahedron_New => some h.Hexahedron_New.1
  | Call.Hexahedron_GetCellDimension _ => some h
  | Call.Hexahedron_GetNumberOfBoundaryFeatures _ _ => some h
  | Call.Hexahedron_GetBoundaryFeature this d k =>
    (h.Hexahedron_GetBoundaryFeature this d k).map Prod.fst
  | Call.Hexahedron_SetCellPoints this ptList => h.Hexahedron_SetCellPoints this ptList
  | Call.Hexahedron_SetCellPointsRange this mem first last =>
    h.Hexahedron_SetCellPointsRange this mem first last
  | Call.Hexahedron_SetCellPoint this localId ptId =>
    h.Hexahedron_SetCellPoint this localId ptId
  | Call.Hexahedron_GetNumberOfVertices _ => some h
  | Call.Hexahedron_GetNumberOfEdges _ => some h
  | Call.Hexahedron_GetNumberOfFaces _ => some h
  | Call.Hexahedron_GetCellVertex this k => (h.Hexahedron_GetCellVertex this k).map Prod.fst
  | Call.Hexahedron_GetCellEdge this k => (h.Hexahedron_GetCellEdge this k).map Prod.fst
  | Call.Hexahedron_GetCellFace this k => (h.Hexahedron_GetCellFace this k).map Prod.fst

/-- The heap after a sequence of calls, `none` as soon as one of them is
undefined. -/
def Heap.run (h : Heap) : List Call → Option Heap
  | [] => some h
  | c :: cs => (h.exec c).bind fun h1 => h1.run cs

/-- The sub-cell at address `a` of the heap `h1`, holding the points `pts`, is
an independent copy with respect to the parent at `this` in the heap `h`
before the extraction: it is another object than the parent, every object of
`h` is in `h1` as it was, and whatever `SetCellPoint` or `SetCellPoints` later
does to the parent, the sub-cell still holds `pts`. -/
def Heap.IsIndependentCopy (h : Heap) (this : Nat) (h1 : Heap) (a : Nat)
    (pts : List PointIdentifier) : Prop :=
  a ≠ this
  ∧ (∀ q, q < h.objects.length → h1.objects[q]? = h.objects[q]?)
  ∧ h1.objects[a]? = some pts
  ∧ ∀ (h2 : Heap) (localId : Int) (ptId : PointIdentifier)
      (ptList mem : List PointIdentifier) (first last : Nat),
      (h1.Hexahedron_SetCellPoint this localId ptId = some h2
        ∨ h1.Hexahedron_SetCellPoints this ptList = some h2
        ∨ h1.Hexahedron_SetCellPointsRange this mem first last = some h2
        ∨ h1.Line_SetCellPoint this localId ptId = some h2
        ∨ h1.Line_SetCellPoints this ptList = some h2
        ∨ h1.Line_SetCellPointsRange this mem first last = some h2) →
      h2.objects[a]? = some pts

/-! ## Outcomes of a call -/

/-- Modelled from the spec: the error kinds of its error taxonomy (section 7),
which the specification recommends for a hardened design. The sources define
no error kind. -/
inductive ErrorKind where
  | InvalidDimension
  | FeatureIndexOutOfRange
  | PointCountMismatch
  | LocalIndexOutOfRange
  deriving DecidableEq, Repr

/-- What a caller can observe of a call: it returns a value, or it accesses
memory out of bounds, which is undefined behaviour, or it fails with an
error. -/
inductive Outcome (α : Type) where
  | returns (a : α)
  | undefinedBehaviour
  | fails (kind : ErrorKind)
  deriving DecidableEq, Repr

/-- The outcome of a call of the sources: they contain no `throw` and no error
return, so a call returns its value or, when an array access is out of bounds
(`none`), has undefined behaviour. -/
def observe {α : Type} : Option α → Outcome α
  | some a => Outcome.returns a
  | none => Outcome.undefinedBehaviour

/-- The entries of the edge table as pairs of local indices; an entry that
were not a pair would be left out. -/
def HexahedronCell.edgePairs : List (Int × Int) :=
  HexahedronCell.m_Edges.filterMap fun row =>
    match row with
    | [a, b] => some (a, b)
    | _ => none

/-! ## The cost function of `itkLevenbergMarquardtOptimizerTest.cxx`

The test computes in `double`; here a `double` is an exact rational number,
so what is proved is the arithmetic of the formulas, not their rounding. -/

/-- The class `CostFunction`: its members `m_Parameters` (a point of 2
coordinates), `m_Measure` (a vector) and `m_Derivative` (a matrix, kept as the
list of its rows). -/
structure CostFunction where
  m_Parameters : List ℚ
  m_Measure : List ℚ
  m_Derivative : List (List ℚ)
  deriving DecidableEq

namespace CostFunction

/-- `enum { XRange = 1, ... }`. -/
def XRange : Int := 1

/-- `enum { ..., YRange = 1 }`. -/
def YRange : Int := 1

/-- `enum { SpaceDimension = 2 }`. -/
def SpaceDimension : Nat := 2

/-- `enum { RangeDimension = ( 2*XRange+1 ) * ( 2*YRange+1 ) }`. -/
def RangeDimension : Nat := ((2 * XRange + 1) * (2 * YRange + 1)).toNat

/-- The constructor `CostFunction()`: `m_Measure` is resized to
`RangeDimension` entries and `m_Derivative` to `RangeDimension` rows of
`SpaceDimension` entries. The entries are indeterminate in C++ and taken to
be 0 here; `GetValue` and `GetDerivative` overwrite each of them. -/
def New : CostFunction :=
  ⟨List.replicate SpaceDimension 0, List.replicate RangeDimension 0,
    List.replicate RangeDimension (List.replicate SpaceDimension 0)⟩

/-- `CostFunction::GetParameters`. -/
def GetParameters (self : CostFunction) : List ℚ := self.m_Parameters

/-- `CostFunction::GetValue`: the state of the two loops is `m_Measure` with
`valueindex`; the loop `for( int y = -YRange; y<=YRange; y++ )` runs
`2*YRange+1` times from `-YRange`. The function returns the object, with
`m_Parameters` and `m_Measure` assigned, and the vector `m_Measure`. The
output to `std::cout` is left out. -/
def GetValue (self : CostFunction) (parameters : List ℚ) :
    Option (CostFunction × List ℚ) :=
  (readAt parameters 0).bind fun a =>
  (readAt parameters 1).bind fun b =>
  (forLoop
    (fun y st =>
      let yp : ℚ := ((y * y : Int) : ℚ) * (b - 2)
      forLoop
        (fun x (st1 : List ℚ × Nat) =>
          (writeAt st1.1 (st1.2 : Int) ((a - 3) * ((x * x : Int) : ℚ) + yp)).map
            fun m => (m, st1.2 + 1))
        (2 * XRange + 1).toNat (-XRange) st)
    (2 * YRange + 1).toNat (-YRange) (self.m_Measure, 0)).map
    fun st => (⟨parameters, st.1, self.m_Derivative⟩, st.1)

/-- The write `m[r][c] = v` of a matrix kept as the list of its rows. -/
def writeAt2 (m : List (List ℚ)) (r c : Int) (v : ℚ) : Option (List (List ℚ)) :=
  (readAt m r).bind fun row =>
  (writeAt row c v).bind fun row1 =>
  writeAt m r row1

/-- `CostFunction::GetDerivative`: the state of the two loops is
`m_Derivative` with `valueindex`. The function returns the object, with
`m_Parameters` and `m_Derivative` assigned, and the matrix `m_Derivative`. -/
def GetDerivative (self : CostFunction) (parameters : List ℚ) :
    Option (CostFunction × List (List ℚ)) :=
  (readAt parameters 0).bind fun a =>
  (readAt parameters 1).bind fun b =>
  (forLoop
    (fun y st =>
      forLoop
        (fun x (st1 : List (List ℚ) × Nat) =>
          (writeAt2 st1.1 (st1.2 : Int) 0 (2 * (x : ℚ) * (a - 3))).bind fun m0 =>
          (writeAt2 m0 (st1.2 : Int) 1 (2 * (y : ℚ) * (b - 2))).map fun m1 =>
          (m1, st1.2 + 1))
        (2 * XRange + 1).toNat (-XRange) st)
    (2 * YRange + 1).toNat (-YRange) (self.m_Derivative, 0)).map
    fun st => (⟨parameters, self.m_Measure, st.1⟩, st.1)

end CostFunction

/-! ## Shared lemmas -/

/-- An in-bounds write succeeds and replaces the slot. -/
theorem writeAt_eq_some {α : Type} (xs : List α) (i : Int) (v : α)
    (h0 : 0 ≤ i) (h1 : i < xs.length) :
    writeAt xs i v = some (xs.set i.toNat v) := by
  have : i.toNat < xs.length := by omega
  simp [writeAt, h0, this]

/-- Reading the slot just written gives the value written. -/
theorem readAt_set_self {α : Type} (xs : List α) (i : Int) (v : α)
    (h0 : 0 ≤ i) (h1 : i < xs.length) :
    readAt (xs.set i.toNat v) i = some v := by
  have : i.toNat < xs.length := by omega
  simp [readAt, h0, List.getElem?_set_self this]

/-- Reading any other slot gives what it held before the write. -/
theorem readAt_set_ne {α : Type} (xs : List α) (i j : Int) (v : α)
    (h0 : 0 ≤ i) (hij : j ≠ i) :
    readAt (xs.set i.toNat v) j = readAt xs j := by
  unfold readAt
  split
  · have : i.toNat ≠ j.toNat := by omega
    exact List.getElem?_set_ne this
  · rfl

/-- A list of length 8 is a list of 8 named entries. -/
theorem list_eq_of_length_eight {α : Type} (xs : List α) (h : xs.length = 8) :
    ∃ a0 a1 a2 a3 a4 a5 a6 a7, xs = [a0, a1, a2, a3, a4, a5, a6, a7] := by
  match xs, h with
  | [a0, a1, a2, a3, a4, a5, a6, a7], _ => exact ⟨a0, a1, a2, a3, a4, a5, a6, a7, rfl⟩

/-- A list of length 2 is a list of 2 named entries. -/
theorem list_eq_of_length_two {α : Type} (xs : List α) (h : xs.length = 2) :
    ∃ a0 a1, xs = [a0, a1] := by
  match xs, h with
  | [a0, a1], _ => exact ⟨a0, a1, rfl⟩

/-- Points read from a duplicate-free sequence at distinct in-range positions
are distinct. -/
theorem nodup_of_map_lookup {α : Type} (ids : List α) (ks : List Nat) (pts : List α)
    (hks : ks.Nodup) (hb : ∀ k ∈ ks, k < ids.length)
    (hm : pts.map some = ks.map (fun k => ids[k]?)) (hn : ids.Nodup) : pts.Nodup := by
  apply List.Nodup.of_map some
  rw [hm]
  exact List.Nodup.map_on (fun x hx y _ hxy => List.getElem?_inj (hb x hx) hn hxy) hks

/-- Points read from a sequence are elements of the sequence. -/
theorem mem_of_map_lookup {α : Type} (ids : List α) (ks : List Nat) (pts : List α)
    (hm : pts.map some = ks.map (fun k => ids[k]?)) : ∀ p ∈ pts, p ∈ ids := by
  intro p hp
  have h1 : some p ∈ pts.map some := List.mem_map_of_mem some hp
  rw [hm, List.mem_map] at h1
  obtain ⟨k, -, hk⟩ := h1
  obtain ⟨hlt, rfl⟩ := List.getElem?_eq_some_iff.mp hk
  exact List.getElem_mem hlt

/-! ## Edge and face extraction -/

/-- C1: the edge table is exactly the twelve pairs of the specification, and
for an 8-entry point sequence and an edge id below 12, `GetCellEdge` returns
the 2-point edge cell holding `ids[E[e][0]]` and `ids[E[e][1]]` in this order;
edge 0 holds `ids[0]` and `ids[1]`. -/
theorem C1_GetCellEdge_table (ids : List PointIdentifier) (hlen : ids.length = 8)
    (e : CellFeatureIdentifier) (he : e < 12) :
    HexahedronCell.m_Edges =
        [[0,1],[1,2],[3,2],[0,3],[4,5],[5,6],[7,6],[4,7],[0,4],[1,5],[3,7],[2,6]]
    ∧ (∃ i j p q, HexahedronCell.m_Edges[e]? = some [i, j]
        ∧ readAt ids i = some p ∧ readAt ids j = some q
        ∧ HexahedronCell.GetCellEdge ⟨ids⟩ e = some ⟨[p, q]⟩)
    ∧ (∃ p q, ids[0]? = some p ∧ ids[1]? = some q
        ∧ HexahedronCell.GetCellEdge ⟨ids⟩ 0 = some ⟨[p, q]⟩) := by
  obtain ⟨a0, a1, a2, a3, a4, a5, a6, a7, rfl⟩ := list_eq_of_length_eight ids hlen
  refine ⟨rfl, ?_, ⟨_, _, rfl, rfl, rfl⟩⟩
  interval_cases e <;> exact ⟨_, _, _, _, rfl, rfl, rfl, rfl⟩

/-- C1, at the point sequence 10..17 and edge 2. -/
theorem C1_GetCellEdge_table_witness :
    ([10, 11, 12, 13, 14, 15, 16, 17].length = 8 ∧ 2 < 12)
    ∧ HexahedronCell.GetCellEdge ⟨[10, 11, 12, 13, 14, 15, 16, 17]⟩ 2 = some ⟨[13, 12]⟩ :=
  ⟨⟨rfl, by decide⟩,
    match (C1_GetCellEdge_table [10, 11, 12, 13, 14, 15, 16, 17] rfl 2 (by decide)).2.1 with
    | ⟨_, _, _, _, _, _, _, _⟩ => rfl⟩

/-- C2: the face table is exactly the six quadruples of the specification,
and for an 8-entry point sequence and a face id below 6, `GetCellFace` returns
the 4-point face cell holding `ids[F[f][0]]`, `ids[F[f][1]]`, `ids[F[f][2]]`,
`ids[F[f][3]]` in this order; face 0 holds `ids[0]`, `ids[4]`, `ids[7]`,
`ids[3]`. -/
theorem C2_GetCellFace_table (ids : List PointIdentifier) (hlen : ids.length = 8)
    (f : CellFeatureIdentifier) (hf : f < 6) :
    HexahedronCell.m_Faces =
        [[0,4,7,3],[1,2,6,5],[0,1,5,4],[3,7,6,2],[0,3,2,1],[4,5,6,7]]
    ∧ (∃ i j k l p q r s, HexahedronCell.m_Faces[f]? = some [i, j, k, l]
        ∧ readAt ids i = some p ∧ readAt ids j = some q
        ∧ readAt ids k = some r ∧ readAt ids l = some s
        ∧ HexahedronCell.GetCellFace ⟨ids⟩ f = some ⟨[p, q, r, s]⟩)
    ∧ (∃ p q r s, ids[0]? = some p ∧ ids[4]? = some q ∧ ids[7]? = some r
        ∧ ids[3]? = some s
        ∧ HexahedronCell.GetCellFace ⟨ids⟩ 0 = some ⟨[p, q, r, s]⟩) := by
  obtain ⟨a0, a1, a2, a3, a4, a5, a6, a7, rfl⟩ := list_eq_of_length_eight ids hlen
  refine ⟨rfl, ?_, ⟨_, _, _, _, rfl, rfl, rfl, rfl, rfl⟩⟩
  interval_cases f <;> exact ⟨_, _, _, _, _, _, _, _, rfl, rfl, rfl, rfl, rfl, rfl⟩

/-- C2, at the point sequence 10..17 and face 3. -/
theorem C2_GetCellFace_table_witness :
    ([10, 11, 12, 13, 14, 15, 16, 17].length = 8 ∧ 3 < 6)
    ∧ HexahedronCell.GetCellFace ⟨[10, 11, 12, 13, 14, 15, 16, 17]⟩ 3
        = some ⟨[13, 17, 16, 12]⟩ :=
  ⟨⟨rfl, by decide⟩,
    match (C2_GetCellFace_table [10, 11, 12, 13, 14, 15, 16, 17] rfl 3 (by decide)).2.1 with
    | ⟨_, _, _, _, _, _, _, _, _, _, _, _, _, _⟩ => rfl⟩

/-! ## Round trips -/

/-- C3: on a hexahedron with any previous contents, `SetCellPoints` of an
8-entry list succeeds, and afterwards `GetCellVertex i`, for `i < 8`, is the
vertex cell whose single point is entry `i` of the list. -/
theorem C3_hexahedron_round_trip (c : HexahedronCell) (hc : c.m_PointIds.length = 8)
    (ps : List PointIdentifier) (hps : ps.length = 8)
    (i : CellFeatureIdentifier) (hi : i < 8) :
    ∃ c1 p, c.SetCellPoints ps = some c1 ∧ ps[i]? = some p
      ∧ c1.GetCellVertex i = some ⟨[p]⟩ := by
  obtain ⟨m⟩ := c
  obtain ⟨b0, b1, b2, b3, b4, b5, b6, b7, rfl⟩ := list_eq_of_length_eight m hc
  obtain ⟨a0, a1, a2, a3, a4, a5, a6, a7, rfl⟩ := list_eq_of_length_eight ps hps
  interval_cases i <;> exact ⟨_, _, rfl, rfl, rfl⟩

/-- C3, on a hexahedron holding 1..8, with the list 10..17 and vertex 5. -/
theorem C3_hexahedron_round_trip_witness :
    ((⟨[1, 2, 3, 4, 5, 6, 7, 8]⟩ : HexahedronCell).m_PointIds.length = 8
      ∧ [10, 11, 12, 13, 14, 15, 16, 17].length = 8 ∧ 5 < 8)
    ∧ ∃ c1 p, (⟨[1, 2, 3, 4, 5, 6, 7, 8]⟩ : HexahedronCell).SetCellPoints
          [10, 11, 12, 13, 14, 15, 16, 17] = some c1
        ∧ [10, 11, 12, 13, 14, 15, 16, 17][5]? = some p
        ∧ c1.GetCellVertex 5 = some ⟨[p]⟩ :=
  ⟨⟨rfl, rfl, by decide⟩,
    C3_hexahedron_round_trip ⟨[1, 2, 3, 4, 5, 6, 7, 8]⟩ rfl
      [10, 11, 12, 13, 14, 15, 16, 17] rfl 5 (by decide)⟩

/-- C4: on a line cell with any previous contents, `SetCellPoints [a, b]`
succeeds, and afterwards `GetCellVertex 0` is the vertex cell with point `a`
and `GetCellVertex 1` the vertex cell with point `b`. -/
theorem C4_line_round_trip (c : LineCell) (hc : c.m_PointIds.length = 2)
    (a b : PointIdentifier) :
    ∃ c1, c.SetCellPoints [a, b] = some c1
      ∧ c1.GetCellVertex 0 = some ⟨[a]⟩ ∧ c1.GetCellVertex 1 = some ⟨[b]⟩ := by
  obtain ⟨m⟩ := c
  obtain ⟨b0, b1, rfl⟩ := list_eq_of_length_two m hc
  exact ⟨_, rfl, rfl, rfl⟩

/-- C4, on a line cell holding 1, 2, with the points 7 and 9. -/
theorem C4_line_round_trip_witness :
    (⟨[1, 2]⟩ : LineCell).m_PointIds.length = 2
    ∧ ∃ c1, (⟨[1, 2]⟩ : LineCell).SetCellPoints [7, 9] = some c1
        ∧ c1.GetCellVertex 0 = some ⟨[7]⟩ ∧ c1.GetCellVertex 1 = some ⟨[9]⟩ :=
  ⟨rfl, C4_line_round_trip ⟨[1, 2]⟩ rfl 7 9⟩

/-! ## Boundary feature counts and dispatch -/

/-- The hexahedron's count of boundary features, case by case. -/
theorem hexahedron_GetNumberOfBoundaryFeatures_eq (c : HexahedronCell) (d : Int) :
    c.GetNumberOfBoundaryFeatures d
      = if d = 0 then 8 else if d = 1 then 12 else if d = 2 then 6 else 0 := by
  unfold HexahedronCell.GetNumberOfBoundaryFeatures
  split <;> simp_all [HexahedronCell.GetNumberOfVertices, HexahedronCell.GetNumberOfEdges,
    HexahedronCell.GetNumberOfFaces, HexahedronCell.NumberOfVertices,
    HexahedronCell.NumberOfEdges, HexahedronCell.NumberOfFaces]

/-- The line's count of boundary features, case by case. -/
theorem line_GetNumberOfBoundaryFeatures_eq (c : LineCell) (d : Int) :
    c.GetNumberOfBoundaryFeatures d = if d = 0 then 2 else 0 := by
  unfold LineCell.GetNumberOfBoundaryFeatures
  split <;> simp_all [LineCell.GetNumberOfVertices, LineCell.NumberOfPoints]

/-- C5: for every integer dimension, the hexahedron's
`GetNumberOfBoundaryFeatures` is `GetNumberOfVertices` = 8 at 0,
`GetNumberOfEdges` = 12 at 1, `GetNumberOfFaces` = 6 at 2 and 0 elsewhere; the
line's is `GetNumberOfVertices` = 2 at 0 and 0 elsewhere, so 0 at 1. -/
theorem C5_boundary_feature_counts (h : HexahedronCell) (l : LineCell) (d : Int) :
    (h.GetNumberOfVertices = 8 ∧ h.GetNumberOfEdges = 12 ∧ h.GetNumberOfFaces = 6
      ∧ l.GetNumberOfVertices = 2)
    ∧ h.GetNumberOfBoundaryFeatures 0 = h.GetNumberOfVertices
    ∧ h.GetNumberOfBoundaryFeatures 1 = h.GetNumberOfEdges
    ∧ h.GetNumberOfBoundaryFeatures 2 = h.GetNumberOfFaces
    ∧ (d ≠ 0 → d ≠ 1 → d ≠ 2 → h.GetNumberOfBoundaryFeatures d = 0)
    ∧ l.GetNumberOfBoundaryFeatures 0 = l.GetNumberOfVertices
    ∧ (d ≠ 0 → l.GetNumberOfBoundaryFeatures d = 0)
    ∧ l.GetNumberOfBoundaryFeatures 1 = 0 := by
  refine ⟨⟨rfl, rfl, rfl, rfl⟩, rfl, rfl, rfl, ?_, rfl, ?_, rfl⟩
  · intro h0 h1 h2
    simp [hexahedron_GetNumberOfBoundaryFeatures_eq, h0, h1, h2]
  · intro h0
    simp [line_GetNumberOfBoundaryFeatures_eq, h0]

/-- C5, at the fresh cells and dimension -4. -/
theorem C5_boundary_feature_counts_witness :
    ((-4 : Int) ≠ 0 ∧ (-4 : Int) ≠ 1 ∧ (-4 : Int) ≠ 2)
    ∧ HexahedronCell.New.GetNumberOfBoundaryFeatures (-4) = 0
    ∧ LineCell.New.GetNumberOfBoundaryFeatures (-4) = 0 :=
  ⟨⟨by decide, by decide, by decide⟩,
    (C5_boundary_feature_counts HexahedronCell.New LineCell.New (-4)).2.2.2.2.1
      (by decide) (by decide) (by decide),
    (C5_boundary_feature_counts HexahedronCell.New LineCell.New (-4)).2.2.2.2.2.2.1
      (by decide)⟩

/-- The vertex extraction of an 8-slot hexahedron succeeds below 8. -/
theorem hexahedron_GetCellVertex_isSome (c : HexahedronCell)
    (hc : c.m_PointIds.length = 8) (k : CellFeatureIdentifier) (hk : k < 8) :
    ∃ v, c.GetCellVertex k = some v := by
  obtain ⟨m⟩ := c
  obtain ⟨a0, a1, a2, a3, a4, a5, a6, a7, rfl⟩ := list_eq_of_length_eight m hc
  interval_cases k <;> exact ⟨_, rfl⟩

/-- The edge extraction of an 8-slot hexahedron succeeds below 12. -/
theorem hexahedron_GetCellEdge_isSome (c : HexahedronCell)
    (hc : c.m_PointIds.length = 8) (k : CellFeatureIdentifier) (hk : k < 12) :
    ∃ e, c.GetCellEdge k = some e := by
  obtain ⟨m⟩ := c
  obtain ⟨a0, a1, a2, a3, a4, a5, a6, a7, rfl⟩ := list_eq_of_length_eight m hc
  interval_cases k <;> exact ⟨_, rfl⟩

/-- The face extraction of an 8-slot hexahedron succeeds below 6. -/
theorem hexahedron_GetCellFace_isSome (c : HexahedronCell)
    (hc : c.m_PointIds.length = 8) (k : CellFeatureIdentifier) (hk : k < 6) :
    ∃ f, c.GetCellFace k = some f := by
  obtain ⟨m⟩ := c
  obtain ⟨a0, a1, a2, a3, a4, a5, a6, a7, rfl⟩ := list_eq_of_length_eight m hc
  interval_cases k <;> exact ⟨_, rfl⟩

/-- The vertex extraction of a 2-slot line succeeds below 2. -/
theorem line_GetCellVertex_isSome (c : LineCell)
    (hc : c.m_PointIds.length = 2) (k : CellFeatureIdentifier) (hk : k < 2) :
    ∃ v, c.GetCellVertex k = some v := by
  obtain ⟨m⟩ := c
  obtain ⟨a0, a1, rfl⟩ := list_eq_of_length_two m hc
  interval_cases k <;> exact ⟨_, rfl⟩

/-- Outside the dimensions 0, 1, 2 the hexahedron answers `NULL`. -/
theorem hexahedron_GetBoundaryFeature_other (c : HexahedronCell) (d : Int)
    (k : CellFeatureIdentifier) (h0 : d ≠ 0) (h1 : d ≠ 1) (h2 : d ≠ 2) :
    c.GetBoundaryFeature d k = some CellPointer.null := by
  unfold HexahedronCell.GetBoundaryFeature
  split <;> simp_all

/-- Outside the dimension 0 the line answers `NULL`. -/
theorem line_GetBoundaryFeature_other (c : LineCell) (d : Int)
    (k : CellFeatureIdentifier) (h0 : d ≠ 0) :
    c.GetBoundaryFeature d k = some CellPointer.null := by
  unfold LineCell.GetBoundaryFeature
  split <;> simp_all

/-- C6: for an in-range feature id, `GetBoundaryFeature` at dimension 0, 1, 2
of the hexahedron points to the cell that `GetCellVertex`, `GetCellEdge`,
`GetCellFace` return, and at every other dimension it is `NULL`; for the line
dimension 0 points to the cell of `GetCellVertex` and every other dimension is
`NULL`. For both shapes the call is defined for every dimension, and its
result is `NULL` exactly when `GetNumberOfBoundaryFeatures` is 0 there. -/
theorem C6_GetBoundaryFeature_dispatch (h : HexahedronCell)
    (hh : h.m_PointIds.length = 8) (l : LineCell) (hl : l.m_PointIds.length = 2)
    (k : CellFeatureIdentifier) (d : Int) :
    (k < 8 → ∃ v, h.GetCellVertex k = some v
        ∧ h.GetBoundaryFeature 0 k = some (CellPointer.to (Cell.vertex v)))
    ∧ (k < 12 → ∃ e, h.GetCellEdge k = some e
        ∧ h.GetBoundaryFeature 1 k = some (CellPointer.to (Cell.line e)))
    ∧ (k < 6 → ∃ f, h.GetCellFace k = some f
        ∧ h.GetBoundaryFeature 2 k = some (CellPointer.to (Cell.quadrilateral f)))
    ∧ (d ≠ 0 → d ≠ 1 → d ≠ 2 → h.GetBoundaryFeature d k = some CellPointer.null)
    ∧ (k < 2 → ∃ v, l.GetCellVertex k = some v
        ∧ l.GetBoundaryFeature 0 k = some (CellPointer.to (Cell.vertex v)))
    ∧ (d ≠ 0 → l.GetBoundaryFeature d k = some CellPointer.null)
    ∧ (h.GetNumberOfBoundaryFeatures d = 0 ∨ k < h.GetNumberOfBoundaryFeatures d →
        ∃ r, h.GetBoundaryFeature d k = some r
          ∧ (r = CellPointer.null ↔ h.GetNumberOfBoundaryFeatures d = 0))
    ∧ (l.GetNumberOfBoundaryFeatures d = 0 ∨ k < l.GetNumberOfBoundaryFeatures d →
        ∃ r, l.GetBoundaryFeature d k = some r
          ∧ (r = CellPointer.null ↔ l.GetNumberOfBoundaryFeatures d = 0)) := by
  have hv : k < 8 → ∃ v, h.GetCellVertex k = some v
      ∧ h.GetBoundaryFeature 0 k = some (CellPointer.to (Cell.vertex v)) := by
    intro hk
    obtain ⟨v, e⟩ := hexahedron_GetCellVertex_isSome h hh k hk
    exact ⟨v, e, by simp [HexahedronCell.GetBoundaryFeature, e]⟩
  have he : k < 12 → ∃ e, h.GetCellEdge k = some e
      ∧ h.GetBoundaryFeature 1 k = some (CellPointer.to (Cell.line e)) := by
    intro hk
    obtain ⟨v, e⟩ := hexahedron_GetCellEdge_isSome h hh k hk
    exact ⟨v, e, by simp [HexahedronCell.GetBoundaryFeature, e]⟩
  have hf : k < 6 → ∃ f, h.GetCellFace k = some f
      ∧ h.GetBoundaryFeature 2 k = some (CellPointer.to (Cell.quadrilateral f)) := by
    intro hk
    obtain ⟨v, e⟩ := hexahedron_GetCellFace_isSome h hh k hk
    exact ⟨v, e, by simp [HexahedronCell.GetBoundaryFeature, e]⟩
  have lv : k < 2 → ∃ v, l.GetCellVertex k = some v
      ∧ l.GetBoundaryFeature 0 k = some (CellPointer.to (Cell.vertex v)) := by
    intro hk
    obtain ⟨v, e⟩ := line_GetCellVertex_isSome l hl k hk
    exact ⟨v, e, by simp [LineCell.GetBoundaryFeature, e]⟩
  refine ⟨hv, he, hf, hexahedron_GetBoundaryFeature_other h d k, lv, line_GetBoundaryFeature_other l d k,
    ?_, ?_⟩
  · rw [hexahedron_GetNumberOfBoundaryFeatures_eq]
    by_cases h0 : d = 0
    · subst h0
      intro hk
      obtain ⟨v, -, e⟩ := hv (by simpa using hk)
      exact ⟨_, e, by simp⟩
    by_cases h1 : d = 1
    · subst h1
      intro hk
      obtain ⟨v, -, e⟩ := he (by simpa using hk)
      exact ⟨_, e, by simp⟩
    by_cases h2 : d = 2
    · subst h2
      intro hk
      obtain ⟨v, -, e⟩ := hf (by simpa using hk)
      exact ⟨_, e, by simp⟩
    intro _
    exact ⟨_, hexahedron_GetBoundaryFeature_other h d k h0 h1 h2, by simp [h0, h1, h2]⟩
  · rw [line_GetNumberOfBoundaryFeatures_eq]
    by_cases h0 : d = 0
    · subst h0
      intro hk
      obtain ⟨v, -, e⟩ := lv (by simpa using hk)
      exact ⟨_, e, by simp⟩
    intro _
    exact ⟨_, line_GetBoundaryFeature_other l d k h0, by simp [h0]⟩

/-- C6, on the hexahedron 10..17 and the line 7, 9, at feature 1 and
dimension 1. -/
theorem C6_GetBoundaryFeature_dispatch_witness :
    ((⟨[10, 11, 12, 13, 14, 15, 16, 17]⟩ : HexahedronCell).m_PointIds.length = 8
      ∧ (⟨[7, 9]⟩ : LineCell).m_PointIds.length = 2 ∧ 1 < 12 ∧ (1 : Int) ≠ 0)
    ∧ (∃ e, (⟨[10, 11, 12, 13, 14, 15, 16, 17]⟩ : HexahedronCell).GetCellEdge 1 = some e
        ∧ (⟨[10, 11, 12, 13, 14, 15, 16, 17]⟩ : HexahedronCell).GetBoundaryFeature 1 1
            = some (CellPointer.to (Cell.line e)))
    ∧ (⟨[7, 9]⟩ : LineCell).GetBoundaryFeature 1 1 = some CellPointer.null :=
  ⟨⟨rfl, rfl, by decide, by decide⟩,
    (C6_GetBoundaryFeature_dispatch ⟨[10, 11, 12, 13, 14, 15, 16, 17]⟩ rfl ⟨[7, 9]⟩ rfl
      1 1).2.1 (by decide),
    (C6_GetBoundaryFeature_dispatch ⟨[10, 11, 12, 13, 14, 15, 16, 17]⟩ rfl ⟨[7, 9]⟩ rfl
      1 1).2.2.2.2.2.1 (by decide)⟩

/-! ## The topology tables -/

/-- C7: every local vertex index 0..7 is an endpoint of exactly 3 of the 12
entries of the edge table. -/
theorem C7_vertex_in_three_edges (v : Fin 8) :
    HexahedronCell.m_Edges.length = 12
    ∧ (HexahedronCell.m_Edges.filter (fun row => decide (((v.val : Nat) : Int) ∈ row))).length
        = 3 := by
  revert v
  decide

/-- C8: in the face table read as cyclic sequences of directed sides, two
distinct faces that share a side traverse it in opposite directions; and the
24 directed sides of the 6 faces, listed here, are pairwise distinct and
closed under reversal. -/
theorem C8_consistent_winding :
    (∀ p ∈ HexahedronCell.m_Faces.enum, ∀ q ∈ HexahedronCell.m_Faces.enum, p.1 ≠ q.1 →
      ∀ s ∈ HexahedronCell.directedSides p.2, ∀ t ∈ HexahedronCell.directedSides q.2,
        (s = t ∨ s = t.swap) → s = t.swap)
    ∧ HexahedronCell.allDirectedSides =
        [ (0,4), (4,7), (7,3), (3,0),  (1,2), (2,6), (6,5), (5,1),
          (0,1), (1,5), (5,4), (4,0),  (3,7), (7,6), (6,2), (2,3),
          (0,3), (3,2), (2,1), (1,0),  (4,5), (5,6), (6,7), (7,4) ]
    ∧ HexahedronCell.allDirectedSides.length = 24
    ∧ HexahedronCell.allDirectedSides.Nodup
    ∧ (∀ s ∈ HexahedronCell.allDirectedSides, s.swap ∈ HexahedronCell.allDirectedSides) := by
  refine ⟨by decide, by decide, by decide, by decide, by decide⟩

/-- C8, at the faces 0 and 2, which share the side between 0 and 4. -/
theorem C8_consistent_winding_witness :
    ((0, [0, 4, 7, 3]) ∈ HexahedronCell.m_Faces.enum
      ∧ (2, [0, 1, 5, 4]) ∈ HexahedronCell.m_Faces.enum
      ∧ ((0 : Int), (4 : Int)) ∈ HexahedronCell.directedSides [0, 4, 7, 3]
      ∧ ((4 : Int), (0 : Int)) ∈ HexahedronCell.directedSides [0, 1, 5, 4])
    ∧ ((0 : Int), (4 : Int)) = ((4 : Int), (0 : Int)).swap :=
  ⟨⟨by decide, by decide, by decide, by decide⟩,
    C8_consistent_winding.1 (0, [0, 4, 7, 3]) (by decide) (2, [0, 1, 5, 4]) (by decide)
      (by decide) (0, 4) (by decide) (4, 0) (by decide) (by decide)⟩

/-! ## Sub-cell points -/

/-- C9: the point of an extracted vertex is `ids[v]`; the points of an
extracted edge (face) are `ids` read at 2 (4) pairwise distinct local indices
below 8, so each is an element of `ids`, and they are pairwise distinct when
the 8 parent identifiers are. -/
theorem C9_subcell_points_subset (ids : List PointIdentifier) (hlen : ids.length = 8)
    (v e f : CellFeatureIdentifier) (hv : v < 8) (he : e < 12) (hf : f < 6) :
    (∃ p, HexahedronCell.GetCellVertex ⟨ids⟩ v = some ⟨[p]⟩ ∧ ids[v]? = some p)
    ∧ (∃ (ks : List Nat) (cell : LineCell),
        HexahedronCell.GetCellEdge ⟨ids⟩ e = some cell
        ∧ ks.length = 2 ∧ ks.Nodup ∧ (∀ k ∈ ks, k < 8)
        ∧ cell.m_PointIds.map some = ks.map (fun k => ids[k]?)
        ∧ (∀ p ∈ cell.m_PointIds, p ∈ ids)
        ∧ (ids.Nodup → cell.m_PointIds.length = 2 ∧ cell.m_PointIds.Nodup))
    ∧ (∃ (ks : List Nat) (cell : QuadrilateralCell),
        HexahedronCell.GetCellFace ⟨ids⟩ f = some cell
        ∧ ks.length = 4 ∧ ks.Nodup ∧ (∀ k ∈ ks, k < 8)
        ∧ cell.m_PointIds.map some = ks.map (fun k => ids[k]?)
        ∧ (∀ p ∈ cell.m_PointIds, p ∈ ids)
        ∧ (ids.Nodup → cell.m_PointIds.length = 4 ∧ cell.m_PointIds.Nodup)) := by
  have hE : ∃ (ks : List Nat) (cell : LineCell),
      HexahedronCell.GetCellEdge ⟨ids⟩ e = some cell
      ∧ ks.length = 2 ∧ ks.Nodup ∧ (∀ k ∈ ks, k < 8)
      ∧ cell.m_PointIds.map some = ks.map (fun k => ids[k]?) := by
    obtain ⟨a0, a1, a2, a3, a4, a5, a6, a7, rfl⟩ := list_eq_of_length_eight ids hlen
    refine ⟨(HexahedronCell.m_Edges.getD e []).map Int.toNat, ?_⟩
    interval_cases e <;> exact ⟨_, rfl, rfl, by decide, by decide, rfl⟩
  have hF : ∃ (ks : List Nat) (cell : QuadrilateralCell),
      HexahedronCell.GetCellFace ⟨ids⟩ f = some cell
      ∧ ks.length = 4 ∧ ks.Nodup ∧ (∀ k ∈ ks, k < 8)
      ∧ cell.m_PointIds.map some = ks.map (fun k => ids[k]?) := by
    obtain ⟨a0, a1, a2, a3, a4, a5, a6, a7, rfl⟩ := list_eq_of_length_eight ids hlen
    refine ⟨(HexahedronCell.m_Faces.getD f []).map Int.toNat, ?_⟩
    interval_cases f <;> exact ⟨_, rfl, rfl, by decide, by decide, rfl⟩
  refine ⟨?_, ?_, ?_⟩
  · obtain ⟨a0, a1, a2, a3, a4, a5, a6, a7, rfl⟩ := list_eq_of_length_eight ids hlen
    interval_cases v <;> exact ⟨_, rfl, rfl⟩
  · obtain ⟨ks, cell, h1, h2, h3, h4, h5⟩ := hE
    refine ⟨ks, cell, h1, h2, h3, h4, h5, mem_of_map_lookup ids ks _ h5, fun hn => ⟨?_, ?_⟩⟩
    · have := congrArg List.length h5
      simpa [h2] using this
    · exact nodup_of_map_lookup ids ks _ h3 (fun k hk => hlen ▸ h4 k hk) h5 hn
  · obtain ⟨ks, cell, h1, h2, h3, h4, h5⟩ := hF
    refine ⟨ks, cell, h1, h2, h3, h4, h5, mem_of_map_lookup ids ks _ h5, fun hn => ⟨?_, ?_⟩⟩
    · have := congrArg List.length h5
      simpa [h2] using this
    · exact nodup_of_map_lookup ids ks _ h3 (fun k hk => hlen ▸ h4 k hk) h5 hn

/-- C9, at the point sequence 10..17, vertex 6, edge 10 and face 4. -/
theorem C9_subcell_points_subset_witness :
    ([10, 11, 12, 13, 14, 15, 16, 17].length = 8 ∧ 6 < 8 ∧ 10 < 12 ∧ 4 < 6
      ∧ [10, 11, 12, 13, 14, 15, 16, 17].Nodup)
    ∧ (∃ p, HexahedronCell.GetCellVertex ⟨[10, 11, 12, 13, 14, 15, 16, 17]⟩ 6 = some ⟨[p]⟩
        ∧ [10, 11, 12, 13, 14, 15, 16, 17][6]? = some p)
    ∧ HexahedronCell.GetCellEdge ⟨[10, 11, 12, 13, 14, 15, 16, 17]⟩ 10 = some ⟨[13, 17]⟩
    ∧ HexahedronCell.GetCellFace ⟨[10, 11, 12, 13, 14, 15, 16, 17]⟩ 4
        = some ⟨[10, 13, 12, 11]⟩ :=
  ⟨⟨rfl, by decide, by decide, by decide, by decide⟩,
    (C9_subcell_points_subset [10, 11, 12, 13, 14, 15, 16, 17] rfl 6 10 4
      (by decide) (by decide) (by decide)).1, rfl, rfl⟩

/-! ## Single-slot mutation -/

/-- C10: on a hexahedron (8 slots) and on a line (2 slots), `SetCellPoint`
at a local index in range succeeds; afterwards that slot holds the identifier,
every other slot holds what it held before, and the number of slots is the
same. -/
theorem C10_SetCellPoint_frame (h : HexahedronCell) (hh : h.m_PointIds.length = 8)
    (l : LineCell) (hl : l.m_PointIds.length = 2) (localId : Int) (id : PointIdentifier)
    (h0 : 0 ≤ localId) :
    (localId < 8 → ∃ h1, h.SetCellPoint localId id = some h1
        ∧ readAt h1.m_PointIds localId = some id
        ∧ (∀ j : Int, j ≠ localId → readAt h1.m_PointIds j = readAt h.m_PointIds j)
        ∧ h1.m_PointIds.length = 8)
    ∧ (localId < 2 → ∃ l1, l.SetCellPoint localId id = some l1
        ∧ readAt l1.m_PointIds localId = some id
        ∧ (∀ j : Int, j ≠ localId → readAt l1.m_PointIds j = readAt l.m_PointIds j)
        ∧ l1.m_PointIds.length = 2) := by
  constructor
  · intro h8
    have hb : localId < h.m_PointIds.length := by omega
    refine ⟨⟨h.m_PointIds.set localId.toNat id⟩, ?_, readAt_set_self _ _ _ h0 hb,
      fun j hj => readAt_set_ne _ _ _ _ h0 hj, by simp [hh]⟩
    simp [HexahedronCell.SetCellPoint, writeAt_eq_some _ _ _ h0 hb]
  · intro h2
    have hb : localId < l.m_PointIds.length := by omega
    refine ⟨⟨l.m_PointIds.set localId.toNat id⟩, ?_, readAt_set_self _ _ _ h0 hb,
      fun j hj => readAt_set_ne _ _ _ _ h0 hj, by simp [hl]⟩
    simp [LineCell.SetCellPoint, writeAt_eq_some _ _ _ h0 hb]

/-- C10, on the hexahedron 10..17 and the line 7, 9, writing 99 at slot 1. -/
theorem C10_SetCellPoint_frame_witness :
    ((⟨[10, 11, 12, 13, 14, 15, 16, 17]⟩ : HexahedronCell).m_PointIds.length = 8
      ∧ (⟨[7, 9]⟩ : LineCell).m_PointIds.length = 2 ∧ (0 : Int) ≤ 1
      ∧ (1 : Int) < 8 ∧ (1 : Int) < 2)
    ∧ (⟨[10, 11, 12, 13, 14, 15, 16, 17]⟩ : HexahedronCell).SetCellPoint 1 99
        = some ⟨[10, 99, 12, 13, 14, 15, 16, 17]⟩
    ∧ (⟨[7, 9]⟩ : LineCell).SetCellPoint 1 99 = some ⟨[7, 99]⟩ :=
  ⟨⟨rfl, rfl, by decide, by decide, by decide⟩,
    match (C10_SetCellPoint_frame ⟨[10, 11, 12, 13, 14, 15, 16, 17]⟩ rfl ⟨[7, 9]⟩ rfl 1 99
      (by decide)).1 (by decide) with
    | ⟨_, _, _, _, _⟩ => rfl,
    rfl⟩

/-! ## The two overloads of `SetCellPoints` -/

/-- A write at the first position after `done` replaces the slot there. -/
theorem writeAt_append_cons (done rest : List PointIdentifier) (b v : PointIdentifier) :
    writeAt (done ++ b :: rest) (done.length : Int) v = some (done ++ v :: rest) := by
  have h : (0 : Int) ≤ (done.length : Int) := Int.ofNat_nonneg _
  simp [writeAt, h]

/-- A write at the position after the last slot is out of bounds. -/
theorem writeAt_length (done : List PointIdentifier) (v : PointIdentifier) :
    writeAt done (done.length : Int) v = none := by
  simp [writeAt]

/-- The range loop copies a range that fits into the slots from `done.length`
on, and keeps the slots after it. -/
theorem copyRange_fits (mem : List PointIdentifier) (range : List PointIdentifier) :
    ∀ (fuel ii last : Nat) (done rest : List PointIdentifier),
      (∀ k, k < range.length → mem[ii + k]? = range[k]?) →
      last = ii + range.length → range.length ≤ fuel → range.length ≤ rest.length →
      copyRange mem last fuel ii (done.length : Int) (done ++ rest)
        = some (done ++ range ++ rest.drop range.length) := by
  induction range with
  | nil =>
    intro fuel ii last done rest _ hlast _ _
    cases fuel <;> simp [copyRange, hlast]
  | cons a r ih =>
    intro fuel ii last done rest hmem hlast hfuel hfit
    obtain ⟨f, rfl⟩ : ∃ f, fuel = f + 1 := ⟨fuel - 1, by simp at hfuel; omega⟩
    obtain ⟨b, rest1, rfl⟩ : ∃ b rest1, rest = b :: rest1 := by
      cases rest with
      | nil => simp at hfit
      | cons b rest1 => exact ⟨b, rest1, rfl⟩
    have hne : ii ≠ last := by simp at hlast; omega
    have h0 : mem[ii]? = some a := by simpa using hmem 0 (by simp)
    have hstep := ih f (ii + 1) last (done ++ [a]) rest1
      (fun k hk => by
        have := hmem (k + 1) (by simp; omega)
        simpa [Nat.add_assoc, Nat.add_comm 1 k] using this)
      (by simp at hlast; omega) (by simp at hfuel; omega) (by simp at hfit; omega)
    have hcast : (((done ++ [a]).length : Nat) : Int) = (done.length : Int) + 1 := by
      simp
    rw [hcast] at hstep
    simp only [copyRange, hne, if_false, h0, Option.some_bind, writeAt_append_cons]
    simpa using hstep

/-- The range loop runs out of slots when the range is longer than the slots
from `done.length` on: the write after the last slot is out of bounds. -/
theorem copyRange_overrun (mem : List PointIdentifier) :
    ∀ (rest range : List PointIdentifier) (fuel ii last : Nat) (done : List PointIdentifier),
      (∀ k, k < range.length → mem[ii + k]? = range[k]?) →
      last = ii + range.length → rest.length < range.length →
      copyRange mem last fuel ii (done.length : Int) (done ++ rest) = none := by
  intro rest
  induction rest with
  | nil =>
    intro range fuel ii last done hmem hlast hlong
    obtain ⟨a, r, rfl⟩ : ∃ a r, range = a :: r := by
      cases range with
      | nil => simp at hlong
      | cons a r => exact ⟨a, r, rfl⟩
    have hne : ii ≠ last := by simp at hlast; omega
    have h0 : mem[ii]? = some a := by simpa using hmem 0 (by simp)
    cases fuel with
    | zero => simp [copyRange, hne]
    | succ f => simp [copyRange, hne, h0, writeAt_length]
  | cons b rest1 ih =>
    intro range fuel ii last done hmem hlast hlong
    obtain ⟨a, r, rfl⟩ : ∃ a r, range = a :: r := by
      cases range with
      | nil => simp at hlong
      | cons a r => exact ⟨a, r, rfl⟩
    have hne : ii ≠ last := by simp at hlast; omega
    have h0 : mem[ii]? = some a := by simpa using hmem 0 (by simp)
    cases fuel with
    | zero => simp [copyRange, hne]
    | succ f =>
      have hstep := ih r f (ii + 1) last (done ++ [a])
        (fun k hk => by
          have := hmem (k + 1) (by simp; omega)
          simpa [Nat.add_assoc, Nat.add_comm 1 k] using this)
        (by simp at hlast; omega) (by simp at hlong; omega)
      have hcast : (((done ++ [a]).length : Nat) : Int) = (done.length : Int) + 1 := by
        simp
      rw [hcast] at hstep
      simp only [copyRange, hne, if_false, h0, Option.some_bind, writeAt_append_cons]
      simpa using hstep

/-- Reading a range out of the memory it lies in. -/
theorem lookup_mid (pre range post : List PointIdentifier) (k : Nat)
    (hk : k < range.length) : (pre ++ range ++ post)[pre.length + k]? = range[k]? := by
  rw [List.append_assoc, List.getElem?_append_right (by omega)]
  simp [List.getElem?_append_left hk]

/-- Rounds beyond the number of free slots plus one change nothing: the range
loop has left, or has failed, before it could use them. -/
theorem copyRange_fuel (mem : List PointIdentifier) (last : Nat) :
    ∀ (rest : List PointIdentifier) (fuel1 fuel2 ii : Nat) (done : List PointIdentifier),
      rest.length < fuel1 → rest.length < fuel2 →
      copyRange mem last fuel1 ii (done.length : Int) (done ++ rest)
        = copyRange mem last fuel2 ii (done.length : Int) (done ++ rest) := by
  intro rest
  induction rest with
  | nil =>
    intro fuel1 fuel2 ii done h1 h2
    obtain ⟨f1, rfl⟩ : ∃ f, fuel1 = f + 1 := ⟨fuel1 - 1, by simp at h1; omega⟩
    obtain ⟨f2, rfl⟩ : ∃ f, fuel2 = f + 1 := ⟨fuel2 - 1, by simp at h2; omega⟩
    by_cases hl : ii = last
    · simp [copyRange, hl]
    · cases hr : mem[ii]? <;> simp [copyRange, hl, hr, writeAt_length]
  | cons b rest1 ih =>
    intro fuel1 fuel2 ii done h1 h2
    obtain ⟨f1, rfl⟩ : ∃ f, fuel1 = f + 1 := ⟨fuel1 - 1, by simp at h1; omega⟩
    obtain ⟨f2, rfl⟩ : ∃ f, fuel2 = f + 1 := ⟨fuel2 - 1, by simp at h2; omega⟩
    by_cases hl : ii = last
    · simp [copyRange, hl]
    · cases hr : mem[ii]? with
      | none => simp [copyRange, hl, hr]
      | some v =>
        have hstep := ih f1 f2 (ii + 1) (done ++ [v]) (by simp at h1; omega)
          (by simp at h2; omega)
        have hcast : (((done ++ [v]).length : Nat) : Int) = (done.length : Int) + 1 := by
          simp
        rw [hcast] at hstep
        simp only [copyRange, hl, if_false, hr, Option.some_bind, writeAt_append_cons]
        simpa using hstep

/-- The range loop on a range of exactly as many identifiers as the cell has
slots: the cell then holds the range. -/
theorem copyRange_exact (pre range post ids : List PointIdentifier)
    (hlen : range.length = ids.length) :
    copyRange (pre ++ range ++ post) (pre.length + range.length) (ids.length + 1)
      pre.length 0 ids = some range := by
  have h := copyRange_fits (pre ++ range ++ post) range (ids.length + 1) pre.length
    (pre.length + range.length) [] ids (fun k hk => lookup_mid pre range post k hk) rfl
    (by omega) (by omega)
  simpa [hlen] using h

/-- C11: on a hexahedron (8 slots) and a line (2 slots) in any prior state,
`SetCellPoints(first, last)` on a range of exactly N identifiers leaves the
cell as `SetCellPoints(list)` on the same identifiers does: the cell holds the
range, in order, from local index 0. The position `last` is not read: the call
gives the same cell when the caller's memory ends at `last`, where a read is
out of bounds. -/
theorem C11_SetCellPoints_overloads_agree (h : HexahedronCell)
    (hh : h.m_PointIds.length = 8) (l : LineCell) (hl : l.m_PointIds.length = 2)
    (pre post r8 r2 : List PointIdentifier) (h8 : r8.length = 8) (h2 : r2.length = 2) :
    (h.SetCellPointsRange (pre ++ r8 ++ post) pre.length (pre.length + 8)
        = h.SetCellPoints r8
      ∧ h.SetCellPoints r8 = some ⟨r8⟩
      ∧ (pre ++ r8)[pre.length + 8]? = none
      ∧ h.SetCellPointsRange (pre ++ r8) pre.length (pre.length + 8) = some ⟨r8⟩)
    ∧ (l.SetCellPointsRange (pre ++ r2 ++ post) pre.length (pre.length + 2)
        = l.SetCellPoints r2
      ∧ l.SetCellPoints r2 = some ⟨r2⟩
      ∧ (pre ++ r2)[pre.length + 2]? = none
      ∧ l.SetCellPointsRange (pre ++ r2) pre.length (pre.length + 2) = some ⟨r2⟩) := by
  have eh : h.SetCellPoints r8 = some ⟨r8⟩ := by
    obtain ⟨m⟩ := h
    obtain ⟨b0, b1, b2, b3, b4, b5, b6, b7, rfl⟩ := list_eq_of_length_eight m hh
    obtain ⟨a0, a1, a2, a3, a4, a5, a6, a7, rfl⟩ := list_eq_of_length_eight r8 h8
    rfl
  have el : l.SetCellPoints r2 = some ⟨r2⟩ := by
    obtain ⟨m⟩ := l
    obtain ⟨b0, b1, rfl⟩ := list_eq_of_length_two m hl
    obtain ⟨a0, a1, rfl⟩ := list_eq_of_length_two r2 h2
    rfl
  have rh : ∀ post1 : List PointIdentifier,
      h.SetCellPointsRange (pre ++ r8 ++ post1) pre.length (pre.length + 8) = some ⟨r8⟩ := by
    intro post1
    have := copyRange_exact pre r8 post1 h.m_PointIds (by omega)
    rw [h8] at this
    simp only [HexahedronCell.SetCellPointsRange, this, Option.map_some']
  have rl : ∀ post1 : List PointIdentifier,
      l.SetCellPointsRange (pre ++ r2 ++ post1) pre.length (pre.length + 2) = some ⟨r2⟩ := by
    intro post1
    have := copyRange_exact pre r2 post1 l.m_PointIds (by omega)
    rw [h2] at this
    simp only [LineCell.SetCellPointsRange, this, Option.map_some']
  refine ⟨⟨(rh post).trans eh.symm, eh, ?_, ?_⟩, ⟨(rl post).trans el.symm, el, ?_, ?_⟩⟩
  · simp [h8]
  · simpa using rh []
  · simp [h2]
  · simpa using rl []

/-- C11, on the hexahedron 1..8 and the line 1, 2, with the ranges 10..17 and
7, 9 lying after two other words of memory. -/
theorem C11_SetCellPoints_overloads_agree_witness :
    ((⟨[1, 2, 3, 4, 5, 6, 7, 8]⟩ : HexahedronCell).m_PointIds.length = 8
      ∧ (⟨[1, 2]⟩ : LineCell).m_PointIds.length = 2
      ∧ [10, 11, 12, 13, 14, 15, 16, 17].length = 8 ∧ [7, 9].length = 2)
    ∧ (⟨[1, 2, 3, 4, 5, 6, 7, 8]⟩ : HexahedronCell).SetCellPointsRange
          ([50, 51] ++ [10, 11, 12, 13, 14, 15, 16, 17]) [50, 51].length ([50, 51].length + 8)
        = some ⟨[10, 11, 12, 13, 14, 15, 16, 17]⟩
    ∧ (⟨[1, 2]⟩ : LineCell).SetCellPointsRange ([50, 51] ++ [7, 9]) [50, 51].length
          ([50, 51].length + 2)
        = some ⟨[7, 9]⟩ :=
  ⟨⟨rfl, rfl, rfl, rfl⟩,
    (C11_SetCellPoints_overloads_agree ⟨[1, 2, 3, 4, 5, 6, 7, 8]⟩ rfl ⟨[1, 2]⟩ rfl
      [50, 51] [60] [10, 11, 12, 13, 14, 15, 16, 17] [7, 9] rfl rfl).1.2.2.2,
    (C11_SetCellPoints_overloads_agree ⟨[1, 2, 3, 4, 5, 6, 7, 8]⟩ rfl ⟨[1, 2]⟩ rfl
      [50, 51] [60] [10, 11, 12, 13, 14, 15, 16, 17] [7, 9] rfl rfl).2.2.2.2⟩

/-! ## The fixed-length invariant -/

/-- A write keeps the number of slots. -/
theorem writeAt_length_eq {α : Type} (xs ys : List α) (i : Int) (v : α)
    (h : writeAt xs i v = some ys) : ys.length = xs.length := by
  unfold writeAt at h
  split at h
  · cases h
    simp
  · cases h

/-- A loop keeps whatever each of its rounds keeps. -/
theorem forLoop_preserves {σ β : Type} (body : Int → σ → Option σ) (f : σ → β)
    (hbody : ∀ i s s1, body i s = some s1 → f s1 = f s) :
    ∀ (n : Nat) (i : Int) (s s1 : σ), forLoop body n i s = some s1 → f s1 = f s := by
  intro n
  induction n with
  | zero =>
    intro i s s1 h
    simp only [forLoop, Option.some.injEq] at h
    rw [h]
  | succ n ih =>
    intro i s s1 h
    simp only [forLoop] at h
    cases hb : body i s with
    | none => simp [hb] at h
    | some s2 =>
      simp only [hb, Option.some_bind] at h
      rw [ih _ _ _ h, hbody _ _ _ hb]

/-- The range loop keeps the number of slots. -/
theorem copyRange_length (mem : List PointIdentifier) (last : Nat) :
    ∀ (fuel ii : Nat) (localId : Int) (ids ids1 : List PointIdentifier),
      copyRange mem last fuel ii localId ids = some ids1 → ids1.length = ids.length := by
  intro fuel
  induction fuel with
  | zero =>
    intro ii localId ids ids1 h
    simp only [copyRange] at h
    split at h
    · cases h
      rfl
    · cases h
  | succ f ih =>
    intro ii localId ids ids1 h
    simp only [copyRange] at h
    split at h
    · cases h
      rfl
    · cases hr : mem[ii]? with
      | none => simp [hr] at h
      | some v =>
        simp only [hr, Option.some_bind] at h
        cases hw : writeAt ids localId v with
        | none => simp [hw] at h
        | some ids2 =>
          simp only [hw, Option.some_bind] at h
          rw [ih _ _ _ _ h, writeAt_length_eq _ _ _ _ hw]

/-- The list overload of `SetCellPoints` keeps the number of slots, whatever
the bound of its loop. -/
theorem copyLoop_length (ptList : List PointIdentifier) (n : Nat) (i : Int)
    (ids ids1 : List PointIdentifier)
    (h : forLoop (fun i ids => (readAt ptList i).bind (writeAt ids i)) n i ids = some ids1) :
    ids1.length = ids.length := by
  refine forLoop_preserves _ List.length ?_ n i ids ids1 h
  intro j s s1 hb
  cases hr : readAt ptList j with
  | none => simp [hr] at hb
  | some v =>
    simp only [hr, Option.some_bind] at hb
    exact writeAt_length_eq _ _ _ _ hb

/-- A member function that keeps the number of slots of its object keeps the
number of slots of every object of the heap. -/
theorem Heap.modify_shape (h h1 : Heap) (p : Nat)
    (f : List PointIdentifier → Option (List PointIdentifier))
    (hf : ∀ ids ids1, f ids = some ids1 → ids1.length = ids.length)
    (hm : h.modify p f = some h1) :
    h1.objects.map List.length = h.objects.map List.length := by
  unfold Heap.modify at hm
  cases ho : h.objects[p]? with
  | none => simp [ho] at hm
  | some ids =>
    simp only [ho, Option.some_bind] at hm
    cases hfi : f ids with
    | none => simp [hfi] at hm
    | some ids1 =>
      simp only [hfi, Option.map_some', Option.some.injEq] at hm
      subst hm
      have hl := hf _ _ hfi
      obtain ⟨hp, hids⟩ := List.getElem?_eq_some_iff.mp ho
      apply List.ext_getElem
      · simp
      · intro q hq1 hq2
        simp only [List.getElem_map, List.getElem_set]
        split
        · next hpq => subst hpq; rw [hl, hids]
        · rfl

/-- Each `SetCellPoint` on the heap keeps the number of slots of every
object. -/
theorem Heap.SetCellPoint_shape (h h1 : Heap) (p : Nat) (i : Int) (v : PointIdentifier) :
    (h.Vertex_SetCellPoint p i v = some h1 ∨ h.Line_SetCellPoint p i v = some h1
      ∨ h.Quadrilateral_SetCellPoint p i v = some h1
      ∨ h.Hexahedron_SetCellPoint p i v = some h1) →
    h1.objects.map List.length = h.objects.map List.length := by
  have key : ∀ ids ids1 : List PointIdentifier,
      (writeAt ids i v).map (fun x => x) = some ids1 → ids1.length = ids.length := by
    intro ids ids1 hw
    cases hw1 : writeAt ids i v with
    | none => simp [hw1] at hw
    | some ids2 =>
      simp only [hw1, Option.map_some', Option.some.injEq] at hw
      subst hw
      exact writeAt_length_eq _ _ _ _ hw1
  rintro (hm | hm | hm | hm)
  all_goals
    refine Heap.modify_shape h h1 p _ ?_ hm
    intro ids ids1 hw
    apply key ids ids1
    simpa [VertexCell.SetCellPoint, LineCell.SetCellPoint, QuadrilateralCell.SetCellPoint,
      HexahedronCell.SetCellPoint, Option.map_map, Function.comp_def] using hw

/-- Each `SetCellPoints` on the heap, of either overload, keeps the number of
slots of every object. -/
theorem Heap.SetCellPoints_shape (h h1 : Heap) (p : Nat) (ptList mem : List PointIdentifier)
    (first last : Nat) :
    (h.Line_SetCellPoints p ptList = some h1 ∨ h.Hexahedron_SetCellPoints p ptList = some h1
      ∨ h.Line_SetCellPointsRange p mem first last = some h1
      ∨ h.Hexahedron_SetCellPointsRange p mem first last = some h1) →
    h1.objects.map List.length = h.objects.map List.length := by
  rintro (hm | hm | hm | hm)
  · refine Heap.modify_shape h h1 p _ ?_ hm
    intro ids ids1 hw
    simp only [LineCell.SetCellPoints, Option.map_map, Function.comp_def] at hw
    cases hc : forLoop (fun i ids => (readAt ptList i).bind (writeAt ids i))
        LineCell.NumberOfPoints 0 ids with
    | none => simp [hc] at hw
    | some ids2 =>
      simp only [hc, Option.map_some', Option.some.injEq] at hw
      subst hw
      exact copyLoop_length _ _ _ _ _ hc
  · refine Heap.modify_shape h h1 p _ ?_ hm
    intro ids ids1 hw
    simp only [HexahedronCell.SetCellPoints, Option.map_map, Function.comp_def] at hw
    cases hc : forLoop (fun i ids => (readAt ptList i).bind (writeAt ids i))
        HexahedronCell.NumberOfPoints 0 ids with
    | none => simp [hc] at hw
    | some ids2 =>
      simp only [hc, Option.map_some', Option.some.injEq] at hw
      subst hw
      exact copyLoop_length _ _ _ _ _ hc
  · refine Heap.modify_shape h h1 p _ ?_ hm
    intro ids ids1 hw
    simp only [LineCell.SetCellPointsRange, Option.map_map, Function.comp_def] at hw
    cases hc : copyRange mem last (ids.length + 1) first 0 ids with
    | none => simp [hc] at hw
    | some ids2 =>
      simp only [hc, Option.map_some', Option.some.injEq] at hw
      subst hw
      exact copyRange_length _ _ _ _ _ _ _ hc
  · refine Heap.modify_shape h h1 p _ ?_ hm
    intro ids ids1 hw
    simp only [HexahedronCell.SetCellPointsRange, Option.map_map, Function.comp_def] at hw
    cases hc : copyRange mem last (ids.length + 1) first 0 ids with
    | none => simp [hc] at hw
    | some ids2 =>
      simp only [hc, Option.map_some', Option.some.injEq] at hw
      subst hw
      exact copyRange_length _ _ _ _ _ _ _ hc

/-- The vertex extraction of either shape adds one object of 1 slot and keeps
the number of slots of every other object. -/
theorem Heap.GetCellVertex_shape (h h1 : Heap) (this a : Nat) (k : CellFeatureIdentifier) :
    (h.Line_GetCellVertex this k = some (h1, a)
      ∨ h.Hexahedron_GetCellVertex this k = some (h1, a)) →
    h1.objects.map List.length = h.objects.map List.length ++ [1] := by
  have key : ((h.Vertex_New.1.load this (k : Int)).bind fun p =>
        h.Vertex_New.1.Vertex_SetCellPoint h.Vertex_New.2 0 p).map
          (fun h2 => (h2, h.Vertex_New.2)) = some (h1, a) →
      h1.objects.map List.length = h.objects.map List.length ++ [1] := by
    intro hm
    cases hl : h.Vertex_New.1.load this (k : Int) with
    | none => simp [hl] at hm
    | some p =>
      simp only [hl, Option.some_bind] at hm
      cases hs : h.Vertex_New.1.Vertex_SetCellPoint h.Vertex_New.2 0 p with
      | none => simp [hs] at hm
      | some h2 =>
        simp only [hs, Option.map_some', Option.some.injEq, Prod.mk.injEq] at hm
        obtain ⟨rfl, -⟩ := hm
        rw [Heap.SetCellPoint_shape _ _ _ _ _ (Or.inl hs)]
        simp [Heap.Vertex_New, Heap.alloc, VertexCell.NumberOfPoints]
  rintro (hm | hm)
  · exact key hm
  · exact key hm

/-- The edge extraction adds one object of 2 slots and keeps the number of
slots of every other object. -/
theorem Heap.GetCellEdge_shape (h h1 : Heap) (this a : Nat) (k : CellFeatureIdentifier)
    (hm : h.Hexahedron_GetCellEdge this k = some (h1, a)) :
    h1.objects.map List.length = h.objects.map List.length ++ [2] := by
  unfold Heap.Hexahedron_GetCellEdge at hm
  simp only at hm
  cases hl : forLoop
      (fun i hp =>
        (HexahedronCell.m_Edges[k]?).bind fun row =>
        (readAt row i).bind fun j =>
        (hp.load this j).bind fun p =>
        hp.Line_SetCellPoint h.Line_New.2 i p)
      LineCell.NumberOfPoints 0 h.Line_New.1 with
  | none => simp [hl] at hm
  | some h2 =>
    simp only [hl, Option.map_some', Option.some.injEq, Prod.mk.injEq] at hm
    obtain ⟨rfl, -⟩ := hm
    have := forLoop_preserves _ (fun hp : Heap => hp.objects.map List.length) ?_ _ _ _ _ hl
    · simp only at this
      rw [this]
      simp [Heap.Line_New, Heap.alloc, LineCell.NumberOfPoints]
    · intro i s s1 hb
      cases hrow : HexahedronCell.m_Edges[k]? with
      | none => simp [hrow] at hb
      | some row =>
        cases hj : readAt row i with
        | none => simp [hrow, hj] at hb
        | some j =>
          cases hp : s.load this j with
          | none => simp [hrow, hj, hp] at hb
          | some p =>
            simp only [hrow, hj, hp, Option.some_bind] at hb
            exact Heap.SetCellPoint_shape _ _ _ _ _ (Or.inr (Or.inl hb))

/-- The face extraction adds one object of 4 slots and keeps the number of
slots of every other object. -/
theorem Heap.GetCellFace_shape (h h1 : Heap) (this a : Nat) (k : CellFeatureIdentifier)
    (hm : h.Hexahedron_GetCellFace this k = some (h1, a)) :
    h1.objects.map List.length = h.objects.map List.length ++ [4] := by
  unfold Heap.Hexahedron_GetCellFace at hm
  simp only at hm
  cases hl : forLoop
      (fun i hp =>
        (HexahedronCell.m_Faces[k]?).bind fun row =>
        (readAt row i).bind fun j =>
        (hp.load this j).bind fun p =>
        hp.Quadrilateral_SetCellPoint h.Quadrilateral_New.2 i p)
      QuadrilateralCell.NumberOfPoints 0 h.Quadrilateral_New.1 with
  | none => simp [hl] at hm
  | some h2 =>
    simp only [hl, Option.map_some', Option.some.injEq, Prod.mk.injEq] at hm
    obtain ⟨rfl, -⟩ := hm
    have := forLoop_preserves _ (fun hp : Heap => hp.objects.map List.length) ?_ _ _ _ _ hl
    · simp only at this
      rw [this]
      simp [Heap.Quadrilateral_New, Heap.alloc, QuadrilateralCell.NumberOfPoints]
    · intro i s s1 hb
      cases hrow : HexahedronCell.m_Faces[k]? with
      | none => simp [hrow] at hb
      | some row =>
        cases hj : readAt row i with
        | none => simp [hrow, hj] at hb
        | some j =>
          cases hp : s.load this j with
          | none => simp [hrow, hj, hp] at hb
          | some p =>
            simp only [hrow, hj, hp, Option.some_bind] at hb
            exact Heap.SetCellPoint_shape _ _ _ _ _ (Or.inr (Or.inr (Or.inl hb)))

/-- `GetBoundaryFeature` of either shape adds at most one object and keeps the
number of slots of every other object. -/
theorem Heap.GetBoundaryFeature_shape (h h1 : Heap) (this : Nat) (d : Int)
    (k : CellFeatureIdentifier) (r : Option Nat) :
    (h.Line_GetBoundaryFeature this d k = some (h1, r)
      ∨ h.Hexahedron_GetBoundaryFeature this d k = some (h1, r)) →
    ∃ extra, h1.objects.map List.length = h.objects.map List.length ++ extra := by
  rintro (hm | hm)
  · unfold Heap.Line_GetBoundaryFeature at hm
    split at hm
    · cases hv : h.Line_GetCellVertex this k with
      | none => simp [hv] at hm
      | some res =>
        simp only [hv, Option.map_some', Option.some.injEq, Prod.mk.injEq] at hm
        obtain ⟨rfl, -⟩ := hm
        exact ⟨[1], Heap.GetCellVertex_shape h res.1 this res.2 k (Or.inl hv)⟩
    · simp only [Option.some.injEq, Prod.mk.injEq] at hm
      obtain ⟨rfl, -⟩ := hm
      exact ⟨[], by simp⟩
  · unfold Heap.Hexahedron_GetBoundaryFeature at hm
    split at hm
    · cases hv : h.Hexahedron_GetCellVertex this k with
      | none => simp [hv] at hm
      | some res =>
        simp only [hv, Option.map_some', Option.some.injEq, Prod.mk.injEq] at hm
        obtain ⟨rfl, -⟩ := hm
        exact ⟨[1], Heap.GetCellVertex_shape h res.1 this res.2 k (Or.inr hv)⟩
    · cases hv : h.Hexahedron_GetCellEdge this k with
      | none => simp [hv] at hm
      | some res =>
        simp only [hv, Option.map_some', Option.some.injEq, Prod.mk.injEq] at hm
        obtain ⟨rfl, -⟩ := hm
        exact ⟨[2], Heap.GetCellEdge_shape h res.1 this res.2 k hv⟩
    · cases hv : h.Hexahedron_GetCellFace this k with
      | none => simp [hv] at hm
      | some res =>
        simp only [hv, Option.map_some', Option.some.injEq, Prod.mk.injEq] at hm
        obtain ⟨rfl, -⟩ := hm
        exact ⟨[4], Heap.GetCellFace_shape h res.1 this res.2 k hv⟩
    · simp only [Option.some.injEq, Prod.mk.injEq] at hm
      obtain ⟨rfl, -⟩ := hm
      exact ⟨[], by simp⟩

/-- A call keeps the number of slots of every object of the heap; the objects
it allocates come after them. -/
theorem Heap.exec_shape (h h1 : Heap) (c : Call) (he : h.exec c = some h1) :
    ∃ extra, h1.objects.map List.length = h.objects.map List.length ++ extra := by
  have same : h1.objects.map List.length = h.objects.map List.length →
      ∃ extra, h1.objects.map List.length = h.objects.map List.length ++ extra :=
    fun e => ⟨[], by simp [e]⟩
  have stay : some h = some h1 →
      ∃ extra, h1.objects.map List.length = h.objects.map List.length ++ extra := by
    intro e
    cases e
    exact ⟨[], by simp⟩
  cases c with
  | Line_New =>
    simp only [Heap.exec, Option.some.injEq] at he
    subst he
    exact ⟨[2], by simp [Heap.Line_New, Heap.alloc, LineCell.NumberOfPoints]⟩
  | Hexahedron_New =>
    simp only [Heap.exec, Option.some.injEq] at he
    subst he
    exact ⟨[8], by simp [Heap.Hexahedron_New, Heap.alloc, HexahedronCell.NumberOfPoints]⟩
  | Line_GetCellDimension this => exact stay he
  | Line_GetNumberOfBoundaryFeatures this d => exact stay he
  | Line_GetNumberOfVertices this => exact stay he
  | Hexahedron_GetCellDimension this => exact stay he
  | Hexahedron_GetNumberOfBoundaryFeatures this d => exact stay he
  | Hexahedron_GetNumberOfVertices this => exact stay he
  | Hexahedron_GetNumberOfEdges this => exact stay he
  | Hexahedron_GetNumberOfFaces this => exact stay he
  | Line_SetCellPoints this ptList =>
    exact same (Heap.SetCellPoints_shape h h1 this ptList [] 0 0 (Or.inl he))
  | Hexahedron_SetCellPoints this ptList =>
    exact same (Heap.SetCellPoints_shape h h1 this ptList [] 0 0 (Or.inr (Or.inl he)))
  | Line_SetCellPointsRange this mem first last =>
    exact same (Heap.SetCellPoints_shape h h1 this [] mem first last
      (Or.inr (Or.inr (Or.inl he))))
  | Hexahedron_SetCellPointsRange this mem first last =>
    exact same (Heap.SetCellPoints_shape h h1 this [] mem first last
      (Or.inr (Or.inr (Or.inr he))))
  | Line_SetCellPoint this localId ptId =>
    exact same (Heap.SetCellPoint_shape h h1 this localId ptId (Or.inr (Or.inl he)))
  | Hexahedron_SetCellPoint this localId ptId =>
    exact same (Heap.SetCellPoint_shape h h1 this localId ptId (Or.inr (Or.inr (Or.inr he))))
  | Line_GetBoundaryFeature this d k =>
    simp only [Heap.exec] at he
    cases hv : h.Line_GetBoundaryFeature this d k with
    | none => simp [hv] at he
    | some res =>
      simp only [hv, Option.map_some', Option.some.injEq] at he
      subst he
      exact Heap.GetBoundaryFeature_shape h res.1 this d k res.2 (Or.inl hv)
  | Hexahedron_GetBoundaryFeature this d k =>
    simp only [Heap.exec] at he
    cases hv : h.Hexahedron_GetBoundaryFeature this d k with
    | none => simp [hv] at he
    | some res =>
      simp only [hv, Option.map_some', Option.some.injEq] at he
      subst he
      exact Heap.GetBoundaryFeature_shape h res.1 this d k res.2 (Or.inr hv)
  | Line_GetCellVertex this k =>
    simp only [Heap.exec] at he
    cases hv : h.Line_GetCellVertex this k with
    | none => simp [hv] at he
    | some res =>
      simp only [hv, Option.map_some', Option.some.injEq] at he
      subst he
      exact ⟨[1], Heap.GetCellVertex_shape h res.1 this res.2 k (Or.inl hv)⟩
  | Hexahedron_GetCellVertex this k =>
    simp only [Heap.exec] at he
    cases hv : h.Hexahedron_GetCellVertex this k with
    | none => simp [hv] at he
    | some res =>
      simp only [hv, Option.map_some', Option.some.injEq] at he
      subst he
      exact ⟨[1], Heap.GetCellVertex_shape h res.1 this res.2 k (Or.inr hv)⟩
  | Hexahedron_GetCellEdge this k =>
    simp only [Heap.exec] at he
    cases hv : h.Hexahedron_GetCellEdge this k with
    | none => simp [hv] at he
    | some res =>
      simp only [hv, Option.map_some', Option.some.injEq] at he
      subst he
      exact ⟨[2], Heap.GetCellEdge_shape h res.1 this res.2 k hv⟩
  | Hexahedron_GetCellFace this k =>
    simp only [Heap.exec] at he
    cases hv : h.Hexahedron_GetCellFace this k with
    | none => simp [hv] at he
    | some res =>
      simp only [hv, Option.map_some', Option.some.injEq] at he
      subst he
      exact ⟨[4], Heap.GetCellFace_shape h res.1 this res.2 k hv⟩

/-- A sequence of calls keeps the number of slots of every object of the
heap it starts from. -/
theorem Heap.run_shape (cs : List Call) :
    ∀ (h h1 : Heap), h.run cs = some h1 →
      ∃ extra, h1.objects.map List.length = h.objects.map List.length ++ extra := by
  induction cs with
  | nil =>
    intro h h1 hr
    simp only [Heap.run, Option.some.injEq] at hr
    subst hr
    exact ⟨[], by simp⟩
  | cons c cs ih =>
    intro h h1 hr
    simp only [Heap.run] at hr
    cases he : h.exec c with
    | none => simp [he] at hr
    | some h2 =>
      simp only [he, Option.some_bind] at hr
      obtain ⟨e1, h1e⟩ := Heap.exec_shape h h2 c he
      obtain ⟨e2, h2e⟩ := ih h2 h1 hr
      exact ⟨e1 ++ e2, by rw [h2e, h1e, List.append_assoc]⟩

/-- When the numbers of slots of a heap are kept, each of its objects has the
number of slots it had. -/
theorem Heap.length_of_shape (h h1 : Heap) (extra : List Nat)
    (hs : h1.objects.map List.length = h.objects.map List.length ++ extra)
    (p : Nat) (hp : p < h.objects.length) :
    (h1.objects[p]?).map List.length = (h.objects[p]?).map List.length := by
  have h1p : (h1.objects.map List.length)[p]? = (h.objects.map List.length ++ extra)[p]? := by
    rw [hs]
  rw [List.getElem?_append_left (by simpa using hp)] at h1p
  simpa using h1p

/-- C12: a hexahedron is created with 8 point slots and a line with 2; every
member function, for every argument on which it is defined, keeps the number
of slots of every cell; so after any sequence of calls the hexahedron still
has exactly 8 slots and the line exactly 2. The functions called by value
keep the length in the same way. -/
theorem C12_fixed_length (h : Heap) (c : Call) (cs : List Call)
    (x : HexahedronCell) (l : LineCell) (ptList mem : List PointIdentifier)
    (first last : Nat) (localId : Int) (ptId : PointIdentifier) :
    ((h.Hexahedron_New.1.objects[h.Hexahedron_New.2]?).map List.length = some 8
      ∧ (h.Line_New.1.objects[h.Line_New.2]?).map List.length = some 2)
    ∧ (∀ h1, h.exec c = some h1 → ∀ p, p < h.objects.length →
        (h1.objects[p]?).map List.length = (h.objects[p]?).map List.length)
    ∧ (∀ h1, h.Hexahedron_New.1.run cs = some h1 →
        (h1.objects[h.Hexahedron_New.2]?).map List.length = some 8)
    ∧ (∀ h1, h.Line_New.1.run cs = some h1 →
        (h1.objects[h.Line_New.2]?).map List.length = some 2)
    ∧ (∀ x1, x.SetCellPoints ptList = some x1 ∨ x.SetCellPointsRange mem first last = some x1
          ∨ x.SetCellPoint localId ptId = some x1 →
        x1.m_PointIds.length = x.m_PointIds.length)
    ∧ (∀ l1, l.SetCellPoints ptList = some l1 ∨ l.SetCellPointsRange mem first last = some l1
          ∨ l.SetCellPoint localId ptId = some l1 →
        l1.m_PointIds.length = l.m_PointIds.length) := by
  have n8 : (h.Hexahedron_New.1.objects[h.Hexahedron_New.2]?).map List.length = some 8 := by
    simp [Heap.Hexahedron_New, Heap.alloc, HexahedronCell.NumberOfPoints]
  have n2 : (h.Line_New.1.objects[h.Line_New.2]?).map List.length = some 2 := by
    simp [Heap.Line_New, Heap.alloc, LineCell.NumberOfPoints]
  refine ⟨⟨n8, n2⟩, ?_, ?_, ?_, ?_, ?_⟩
  · intro h1 he p hp
    obtain ⟨extra, hs⟩ := Heap.exec_shape h h1 c he
    exact Heap.length_of_shape h h1 extra hs p hp
  · intro h1 hr
    obtain ⟨extra, hs⟩ := Heap.run_shape cs _ h1 hr
    rw [Heap.length_of_shape _ h1 extra hs _ (by simp [Heap.Hexahedron_New, Heap.alloc]), n8]
  · intro h1 hr
    obtain ⟨extra, hs⟩ := Heap.run_shape cs _ h1 hr
    rw [Heap.length_of_shape _ h1 extra hs _ (by simp [Heap.Line_New, Heap.alloc]), n2]
  · rintro x1 (hx | hx | hx)
    · simp only [HexahedronCell.SetCellPoints] at hx
      cases hc : forLoop (fun i ids => (readAt ptList i).bind (writeAt ids i))
          HexahedronCell.NumberOfPoints 0 x.m_PointIds with
      | none => simp [hc] at hx
      | some ids2 =>
        simp only [hc, Option.map_some', Option.some.injEq] at hx
        subst hx
        exact copyLoop_length _ _ _ _ _ hc
    · simp only [HexahedronCell.SetCellPointsRange] at hx
      cases hc : copyRange mem last (x.m_PointIds.length + 1) first 0 x.m_PointIds with
      | none => simp [hc] at hx
      | some ids2 =>
        simp only [hc, Option.map_some', Option.some.injEq] at hx
        subst hx
        exact copyRange_length _ _ _ _ _ _ _ hc
    · simp only [HexahedronCell.SetCellPoint] at hx
      cases hc : writeAt x.m_PointIds localId ptId with
      | none => simp [hc] at hx
      | some ids2 =>
        simp only [hc, Option.map_some', Option.some.injEq] at hx
        subst hx
        exact writeAt_length_eq _ _ _ _ hc
  · rintro l1 (hx | hx | hx)
    · simp only [LineCell.SetCellPoints] at hx
      cases hc : forLoop (fun i ids => (readAt ptList i).bind (writeAt ids i))
          LineCell.NumberOfPoints 0 l.m_PointIds with
      | none => simp [hc] at hx
      | some ids2 =>
        simp only [hc, Option.map_some', Option.some.injEq] at hx
        subst hx
        exact copyLoop_length _ _ _ _ _ hc
    · simp only [LineCell.SetCellPointsRange] at hx
      cases hc : copyRange mem last (l.m_PointIds.length + 1) first 0 l.m_PointIds with
      | none => simp [hc] at hx
      | some ids2 =>
        simp only [hc, Option.map_some', Option.some.injEq] at hx
        subst hx
        exact copyRange_length _ _ _ _ _ _ _ hc
    · simp only [LineCell.SetCellPoint] at hx
      cases hc : writeAt l.m_PointIds localId ptId with
      | none => simp [hc] at hx
      | some ids2 =>
        simp only [hc, Option.map_some', Option.some.injEq] at hx
        subst hx
        exact writeAt_length_eq _ _ _ _ hc

/-- C12, on the empty heap: a hexahedron is created at address 0, its points
are set to 10..17, its edge 3 is extracted and its slot 2 is overwritten; the
call sequence is defined and the hexahedron still has 8 slots. -/
theorem C12_fixed_length_witness :
    ∃ h1, (Heap.mk []).Hexahedron_New.1.run
        [Call.Hexahedron_SetCellPoints 0 [10, 11, 12, 13, 14, 15, 16, 17],
          Call.Hexahedron_GetCellEdge 0 3, Call.Hexahedron_SetCellPoint 0 2 99] = some h1
      ∧ (h1.objects[(Heap.mk []).Hexahedron_New.2]?).map List.length = some 8 :=
  ⟨_, rfl,
    (C12_fixed_length (Heap.mk []) Call.Line_New
      [Call.Hexahedron_SetCellPoints 0 [10, 11, 12, 13, 14, 15, 16, 17],
        Call.Hexahedron_GetCellEdge 0 3, Call.Hexahedron_SetCellPoint 0 2 99]
      HexahedronCell.New LineCell.New [] [] 0 0 0 0).2.2.1 _ rfl⟩

/-! ## Extraction is a value copy -/

/-- A loop on one state simulates the loop on another state, when each round
does. -/
theorem forLoop_map {σ τ : Type} (bodyS : Int → σ → Option σ) (bodyT : Int → τ → Option τ)
    (g : σ → τ) (hbody : ∀ i s, bodyT i (g s) = (bodyS i s).map g) :
    ∀ (n : Nat) (i : Int) (s : σ), forLoop bodyT n i (g s) = (forLoop bodyS n i s).map g := by
  intro n
  induction n with
  | zero => intro i s; rfl
  | succ n ih =>
    intro i s
    simp only [forLoop, hbody]
    cases bodyS i s with
    | none => rfl
    | some s1 => simp [ih]

/-- A read of an object of the heap is not affected by a newer object. -/
theorem Heap.load_append (objs : List (List PointIdentifier)) (arr ids : List PointIdentifier)
    (this : Nat) (hthis : objs[this]? = some ids) (k : Int) :
    (Heap.mk (objs ++ [arr])).load this k = readAt ids k := by
  obtain ⟨hlt, -⟩ := List.getElem?_eq_some_iff.mp hthis
  simp [Heap.load, List.getElem?_append_left hlt, hthis]

/-- A member function run on the newest object changes this object only. -/
theorem Heap.modify_last (objs : List (List PointIdentifier)) (arr : List PointIdentifier)
    (f : List PointIdentifier → Option (List PointIdentifier)) :
    (Heap.mk (objs ++ [arr])).modify objs.length f
      = (f arr).map fun arr1 => Heap.mk (objs ++ [arr1]) := by
  simp [Heap.modify]

/-- A member function run on one object leaves the other objects as they
were. -/
theorem Heap.modify_other (h h2 : Heap) (p q : Nat)
    (f : List PointIdentifier → Option (List PointIdentifier))
    (hm : h.modify p f = some h2) (hq : q ≠ p) : h2.objects[q]? = h.objects[q]? := by
  unfold Heap.modify at hm
  cases ho : h.objects[p]? with
  | none => simp [ho] at hm
  | some ids =>
    simp only [ho, Option.some_bind] at hm
    cases hfi : f ids with
    | none => simp [hfi] at hm
    | some ids1 =>
      simp only [hfi, Option.map_some', Option.some.injEq] at hm
      subst hm
      exact List.getElem?_set_ne (Ne.symm hq)

/-- A new object appended to the heap, holding `pts`, is an independent copy
with respect to any object of the heap. -/
theorem Heap.independent_of_append (objs : List (List PointIdentifier))
    (ids pts : List PointIdentifier) (this : Nat) (hthis : objs[this]? = some ids) :
    (Heap.mk objs).IsIndependentCopy this (Heap.mk (objs ++ [pts])) objs.length pts := by
  obtain ⟨hlt, -⟩ := List.getElem?_eq_some_iff.mp hthis
  have hne : objs.length ≠ this := by omega
  have hlast : (objs ++ [pts])[objs.length]? = some pts := by simp
  refine ⟨hne, fun q hq => List.getElem?_append_left hq, hlast, ?_⟩
  intro h2 localId ptId ptList mem first last hm
  rw [← hlast]
  rcases hm with hm | hm | hm | hm | hm | hm <;>
    exact Heap.modify_other _ h2 this objs.length _ hm hne

/-- A read at a feature identifier is the lookup in the list. -/
theorem readAt_natCast {α : Type} (xs : List α) (k : Nat) : readAt xs (k : Int) = xs[k]? := by
  simp [readAt]

/-- The vertex extraction on the heap, of either shape, appends to the heap
the vertex that the extraction by value returns, and does nothing else. -/
theorem Heap.GetCellVertex_eq (h : Heap) (this : Nat) (ids : List PointIdentifier)
    (hthis : h.objects[this]? = some ids) (k : CellFeatureIdentifier) :
    h.Hexahedron_GetCellVertex this k
        = ((HexahedronCell.mk ids).GetCellVertex k).map
            (fun sub => (Heap.mk (h.objects ++ [sub.m_PointIds]), h.objects.length))
    ∧ h.Line_GetCellVertex this k
        = ((LineCell.mk ids).GetCellVertex k).map
            (fun sub => (Heap.mk (h.objects ++ [sub.m_PointIds]), h.objects.length)) := by
  have key : ((h.Vertex_New.1.load this (k : Int)).bind fun p =>
        h.Vertex_New.1.Vertex_SetCellPoint h.Vertex_New.2 0 p).map
          (fun h2 => (h2, h.Vertex_New.2))
      = ((ids[k]?).bind (VertexCell.New.SetCellPoint 0)).map
          (fun sub => (Heap.mk (h.objects ++ [sub.m_PointIds]), h.objects.length)) := by
    simp only [Heap.Vertex_New, Heap.alloc, Heap.load_append _ _ _ _ hthis, readAt_natCast,
      Heap.Vertex_SetCellPoint, Heap.modify_last]
    cases ids[k]? with
    | none => rfl
    | some p =>
      simp only [Option.some_bind, VertexCell.SetCellPoint, VertexCell.New]
      cases writeAt (List.replicate VertexCell.NumberOfPoints 0) 0 p <;> rfl
  exact ⟨key, key⟩

/-- The edge extraction on the heap appends to the heap the edge that the
extraction by value returns, and does nothing else. -/
theorem Heap.GetCellEdge_eq (h : Heap) (this : Nat) (ids : List PointIdentifier)
    (hthis : h.objects[this]? = some ids) (k : CellFeatureIdentifier) :
    h.Hexahedron_GetCellEdge this k
      = ((HexahedronCell.mk ids).GetCellEdge k).map
          (fun sub => (Heap.mk (h.objects ++ [sub.m_PointIds]), h.objects.length)) := by
  unfold Heap.Hexahedron_GetCellEdge HexahedronCell.GetCellEdge
  simp only [Heap.Line_New, Heap.alloc]
  have hsim := forLoop_map
    (fun i (edge : LineCell) =>
      (HexahedronCell.m_Edges[k]?).bind fun row =>
      (readAt row i).bind fun j =>
      (readAt ids j).bind fun p =>
      edge.SetCellPoint i p)
    (fun i (hp : Heap) =>
      (HexahedronCell.m_Edges[k]?).bind fun row =>
      (readAt row i).bind fun j =>
      (hp.load this j).bind fun p =>
      hp.Line_SetCellPoint h.objects.length i p)
    (fun edge => Heap.mk (h.objects ++ [edge.m_PointIds]))
    (by
      intro i s
      simp only [Heap.load_append _ _ _ _ hthis, Heap.Line_SetCellPoint, Heap.modify_last,
        LineCell.SetCellPoint]
      cases HexahedronCell.m_Edges[k]? with
      | none => rfl
      | some row =>
        simp only [Option.some_bind]
        cases readAt row i with
        | none => rfl
        | some j =>
          simp only [Option.some_bind]
          cases readAt ids j with
          | none => rfl
          | some p =>
            simp only [Option.some_bind]
            cases writeAt s.m_PointIds i p <;> rfl)
    LineCell.NumberOfPoints 0 LineCell.New
  have hnew : Heap.mk (h.objects ++ [List.replicate LineCell.NumberOfPoints 0])
      = (fun edge : LineCell => Heap.mk (h.objects ++ [edge.m_PointIds])) LineCell.New := rfl
  rw [hnew, hsim]
  simp [Option.map_map, Function.comp_def]

/-- The face extraction on the heap appends to the heap the face that the
extraction by value returns, and does nothing else. -/
theorem Heap.GetCellFace_eq (h : Heap) (this : Nat) (ids : List PointIdentifier)
    (hthis : h.objects[this]? = some ids) (k : CellFeatureIdentifier) :
    h.Hexahedron_GetCellFace this k
      = ((HexahedronCell.mk ids).GetCellFace k).map
          (fun sub => (Heap.mk (h.objects ++ [sub.m_PointIds]), h.objects.length)) := by
  unfold Heap.Hexahedron_GetCellFace HexahedronCell.GetCellFace
  simp only [Heap.Quadrilateral_New, Heap.alloc]
  have hsim := forLoop_map
    (fun i (face : QuadrilateralCell) =>
      (HexahedronCell.m_Faces[k]?).bind fun row =>
      (readAt row i).bind fun j =>
      (readAt ids j).bind fun p =>
      face.SetCellPoint i p)
    (fun i (hp : Heap) =>
      (HexahedronCell.m_Faces[k]?).bind fun row =>
      (readAt row i).bind fun j =>
      (hp.load this j).bind fun p =>
      hp.Quadrilateral_SetCellPoint h.objects.length i p)
    (fun face => Heap.mk (h.objects ++ [face.m_PointIds]))
    (by
      intro i s
      simp only [Heap.load_append _ _ _ _ hthis, Heap.Quadrilateral_SetCellPoint, Heap.modify_last,
        QuadrilateralCell.SetCellPoint]
      cases HexahedronCell.m_Faces[k]? with
      | none => rfl
      | some row =>
        simp only [Option.some_bind]
        cases readAt row i with
        | none => rfl
        | some j =>
          simp only [Option.some_bind]
          cases readAt ids j with
          | none => rfl
          | some p =>
            simp only [Option.some_bind]
            cases writeAt s.m_PointIds i p <;> rfl)
    QuadrilateralCell.NumberOfPoints 0 QuadrilateralCell.New
  have hnew : Heap.mk (h.objects ++ [List.replicate QuadrilateralCell.NumberOfPoints 0])
      = (fun face : QuadrilateralCell => Heap.mk (h.objects ++ [face.m_PointIds]))
          QuadrilateralCell.New := rfl
  rw [hnew, hsim]
  simp [Option.map_map, Function.comp_def]

/-- The parent is unchanged by, and independent of, a sub-cell appended to the
heap. -/
theorem Heap.parent_and_copy (h : Heap) (this : Nat) (ids pts : List PointIdentifier)
    (hthis : h.objects[this]? = some ids) :
    (Heap.mk (h.objects ++ [pts])).objects[this]? = some ids
    ∧ h.IsIndependentCopy this (Heap.mk (h.objects ++ [pts])) h.objects.length pts := by
  obtain ⟨hlt, -⟩ := List.getElem?_eq_some_iff.mp hthis
  exact ⟨by simp [List.getElem?_append_left hlt, hthis],
    Heap.independent_of_append h.objects ids pts this hthis⟩

/-- C13: for a hexahedron at `this` with 8 slots, a line at `that` with 2
slots and an in-range feature, `GetCellVertex`, `GetCellEdge`, `GetCellFace`
and `GetBoundaryFeature` return a new object holding the points that the
extraction by value computes from the parent; the parent still holds its
points, every other object of the heap is as it was, and the sub-cell keeps
its points whatever `SetCellPoint` or `SetCellPoints` later does to the
parent. At a dimension without features `GetBoundaryFeature` leaves the heap
as it is. -/
theorem C13_extraction_is_a_copy (h : Heap) (this that : Nat)
    (ids lids : List PointIdentifier)
    (hthis : h.objects[this]? = some ids) (hlen : ids.length = 8)
    (hthat : h.objects[that]? = some lids) (hllen : lids.length = 2)
    (k : CellFeatureIdentifier) (d : Int) :
    (k < 8 → ∃ h1 a sub, h.Hexahedron_GetCellVertex this k = some (h1, a)
        ∧ h.Hexahedron_GetBoundaryFeature this 0 k = some (h1, some a)
        ∧ (HexahedronCell.mk ids).GetCellVertex k = some sub
        ∧ h1.objects[this]? = some ids
        ∧ h.IsIndependentCopy this h1 a sub.m_PointIds)
    ∧ (k < 12 → ∃ h1 a sub, h.Hexahedron_GetCellEdge this k = some (h1, a)
        ∧ h.Hexahedron_GetBoundaryFeature this 1 k = some (h1, some a)
        ∧ (HexahedronCell.mk ids).GetCellEdge k = some sub
        ∧ h1.objects[this]? = some ids
        ∧ h.IsIndependentCopy this h1 a sub.m_PointIds)
    ∧ (k < 6 → ∃ h1 a sub, h.Hexahedron_GetCellFace this k = some (h1, a)
        ∧ h.Hexahedron_GetBoundaryFeature this 2 k = some (h1, some a)
        ∧ (HexahedronCell.mk ids).GetCellFace k = some sub
        ∧ h1.objects[this]? = some ids
        ∧ h.IsIndependentCopy this h1 a sub.m_PointIds)
    ∧ (d ≠ 0 → d ≠ 1 → d ≠ 2 → h.Hexahedron_GetBoundaryFeature this d k = some (h, none))
    ∧ (k < 2 → ∃ h1 a sub, h.Line_GetCellVertex that k = some (h1, a)
        ∧ h.Line_GetBoundaryFeature that 0 k = some (h1, some a)
        ∧ (LineCell.mk lids).GetCellVertex k = some sub
        ∧ h1.objects[that]? = some lids
        ∧ h.IsIndependentCopy that h1 a sub.m_PointIds)
    ∧ (d ≠ 0 → h.Line_GetBoundaryFeature that d k = some (h, none)) := by
  refine ⟨?_, ?_, ?_, ?_, ?_, ?_⟩
  · intro hk
    obtain ⟨sub, hsub⟩ := hexahedron_GetCellVertex_isSome ⟨ids⟩ hlen k hk
    have e : h.Hexahedron_GetCellVertex this k
        = some (Heap.mk (h.objects ++ [sub.m_PointIds]), h.objects.length) := by
      rw [(Heap.GetCellVertex_eq h this ids hthis k).1, hsub]
      rfl
    obtain ⟨p1, p2⟩ := Heap.parent_and_copy h this ids sub.m_PointIds hthis
    exact ⟨_, _, sub, e, by simp [Heap.Hexahedron_GetBoundaryFeature, e], hsub, p1, p2⟩
  · intro hk
    obtain ⟨sub, hsub⟩ := hexahedron_GetCellEdge_isSome ⟨ids⟩ hlen k hk
    have e : h.Hexahedron_GetCellEdge this k
        = some (Heap.mk (h.objects ++ [sub.m_PointIds]), h.objects.length) := by
      rw [Heap.GetCellEdge_eq h this ids hthis k, hsub]
      rfl
    obtain ⟨p1, p2⟩ := Heap.parent_and_copy h this ids sub.m_PointIds hthis
    exact ⟨_, _, sub, e, by simp [Heap.Hexahedron_GetBoundaryFeature, e], hsub, p1, p2⟩
  · intro hk
    obtain ⟨sub, hsub⟩ := hexahedron_GetCellFace_isSome ⟨ids⟩ hlen k hk
    have e : h.Hexahedron_GetCellFace this k
        = some (Heap.mk (h.objects ++ [sub.m_PointIds]), h.objects.length) := by
      rw [Heap.GetCellFace_eq h this ids hthis k, hsub]
      rfl
    obtain ⟨p1, p2⟩ := Heap.parent_and_copy h this ids sub.m_PointIds hthis
    exact ⟨_, _, sub, e, by simp [Heap.Hexahedron_GetBoundaryFeature, e], hsub, p1, p2⟩
  · intro h0 h1 h2
    unfold Heap.Hexahedron_GetBoundaryFeature
    split <;> simp_all
  · intro hk
    obtain ⟨sub, hsub⟩ := line_GetCellVertex_isSome ⟨lids⟩ hllen k hk
    have e : h.Line_GetCellVertex that k
        = some (Heap.mk (h.objects ++ [sub.m_PointIds]), h.objects.length) := by
      rw [(Heap.GetCellVertex_eq h that lids hthat k).2, hsub]
      rfl
    obtain ⟨p1, p2⟩ := Heap.parent_and_copy h that lids sub.m_PointIds hthat
    exact ⟨_, _, sub, e, by simp [Heap.Line_GetBoundaryFeature, e], hsub, p1, p2⟩
  · intro h0
    unfold Heap.Line_GetBoundaryFeature
    split <;> simp_all

/-- C13, on the heap holding the hexahedron 10..17 at address 0 and the line
7, 9 at address 1: edge 2 is extracted to address 2 and holds 13, 12; slot 2
of the hexahedron is then overwritten with 99, and the edge still holds 13,
12. -/
theorem C13_extraction_is_a_copy_witness :
    ((Heap.mk [[10, 11, 12, 13, 14, 15, 16, 17], [7, 9]]).objects[0]?
        = some [10, 11, 12, 13, 14, 15, 16, 17]
      ∧ [10, 11, 12, 13, 14, 15, 16, 17].length = 8
      ∧ (Heap.mk [[10, 11, 12, 13, 14, 15, 16, 17], [7, 9]]).objects[1]? = some [7, 9]
      ∧ [7, 9].length = 2 ∧ 2 < 12)
    ∧ (Heap.mk [[10, 11, 12, 13, 14, 15, 16, 17], [7, 9]]).Hexahedron_GetCellEdge 0 2
        = some (Heap.mk [[10, 11, 12, 13, 14, 15, 16, 17], [7, 9], [13, 12]], 2)
    ∧ (Heap.mk [[10, 11, 12, 13, 14, 15, 16, 17], [7, 9], [13, 12]]).Hexahedron_SetCellPoint
          0 2 99
        = some (Heap.mk [[10, 11, 99, 13, 14, 15, 16, 17], [7, 9], [13, 12]])
    ∧ ∃ h1 a sub, (Heap.mk [[10, 11, 12, 13, 14, 15, 16, 17], [7, 9]]).Hexahedron_GetCellEdge
          0 2 = some (h1, a)
        ∧ (Heap.mk [[10, 11, 12, 13, 14, 15, 16, 17], [7, 9]]).Hexahedron_GetBoundaryFeature
          0 1 2 = some (h1, some a)
        ∧ (HexahedronCell.mk [10, 11, 12, 13, 14, 15, 16, 17]).GetCellEdge 2 = some sub
        ∧ h1.objects[0]? = some [10, 11, 12, 13, 14, 15, 16, 17]
        ∧ (Heap.mk [[10, 11, 12, 13, 14, 15, 16, 17], [7, 9]]).IsIndependentCopy 0 h1 a
            sub.m_PointIds :=
  ⟨⟨rfl, rfl, rfl, rfl, by decide⟩, rfl, rfl,
    (C13_extraction_is_a_copy (Heap.mk [[10, 11, 12, 13, 14, 15, 16, 17], [7, 9]]) 0 1
      [10, 11, 12, 13, 14, 15, 16, 17] [7, 9] rfl rfl rfl rfl 2 1).2.1 (by decide)⟩

/-! ## Mismatched point counts and out-of-range feature ids -/

/-- A read that is defined is a read inside the list. -/
theorem readAt_lt {α : Type} (xs : List α) (i : Nat) (v : α)
    (h : readAt xs (i : Int) = some v) : i < xs.length := by
  rw [readAt_natCast] at h
  exact (List.getElem?_eq_some_iff.mp h).1

/-- The loop of the list overload, when it runs at least once, is defined
only when the list reaches as far as the loop reads. -/
theorem copyLoop_bound (ptList : List PointIdentifier) :
    ∀ (n i : Nat) (ids ids1 : List PointIdentifier),
      forLoop (fun i ids => (readAt ptList i).bind (writeAt ids i)) (n + 1) (i : Int) ids
        = some ids1 →
      i + (n + 1) ≤ ptList.length := by
  intro n
  induction n with
  | zero =>
    intro i ids ids1 h
    simp only [forLoop] at h
    cases hr : readAt ptList (i : Int) with
    | none => simp [hr] at h
    | some v =>
      have := readAt_lt _ _ _ hr
      omega
  | succ n ih =>
    intro i ids ids1 h
    rw [forLoop] at h
    cases hr : readAt ptList (i : Int) with
    | none => simp [hr] at h
    | some v =>
      simp only [hr, Option.some_bind] at h
      cases hw : writeAt ids (i : Int) v with
      | none => simp [hw] at h
      | some ids2 =>
        simp only [hw, Option.some_bind] at h
        have hcast : ((i : Int) + 1) = ((i + 1 : Nat) : Int) := by simp
        rw [hcast] at h
        have := ih (i + 1) ids2 ids1 h
        omega

/-- A list of at least 8 entries is 8 named entries and a rest. -/
theorem list_eq_of_eight_le_length {α : Type} (xs : List α) (h : 8 ≤ xs.length) :
    ∃ a0 a1 a2 a3 a4 a5 a6 a7 rest, xs = a0 :: a1 :: a2 :: a3 :: a4 :: a5 :: a6 :: a7 :: rest := by
  obtain ⟨a0, a1, a2, a3, a4, a5, a6, a7, e⟩ :=
    list_eq_of_length_eight (xs.take 8) (by simp; omega)
  refine ⟨a0, a1, a2, a3, a4, a5, a6, a7, xs.drop 8, ?_⟩
  have := List.take_append_drop 8 xs
  rw [e] at this
  exact this.symm

/-- A list of at least 2 entries is 2 named entries and a rest. -/
theorem list_eq_of_two_le_length {α : Type} (xs : List α) (h : 2 ≤ xs.length) :
    ∃ a0 a1 rest, xs = a0 :: a1 :: rest := by
  obtain ⟨a0, a1, e⟩ := list_eq_of_length_two (xs.take 2) (by simp; omega)
  refine ⟨a0, a1, xs.drop 2, ?_⟩
  have := List.take_append_drop 2 xs
  rw [e] at this
  exact this.symm

/-- C14, refuted: on the hexahedron 1..8, `SetCellPoints` with a list of 9
identifiers returns, and the cell then holds the first 8 of them instead of
what it held; `SetCellPoints(first, last)` with a range of 3 identifiers
returns, and the first 3 slots are overwritten. Neither call fails with a
count-mismatch error. -/
theorem C14_count_mismatch_counterexample :
    observe ((HexahedronCell.mk [1, 2, 3, 4, 5, 6, 7, 8]).SetCellPoints
        [10, 11, 12, 13, 14, 15, 16, 17, 18])
      = Outcome.returns ⟨[10, 11, 12, 13, 14, 15, 16, 17]⟩
    ∧ observe ((HexahedronCell.mk [1, 2, 3, 4, 5, 6, 7, 8]).SetCellPoints
        [10, 11, 12, 13, 14, 15, 16, 17, 18])
      ≠ Outcome.fails ErrorKind.PointCountMismatch
    ∧ (HexahedronCell.mk [10, 11, 12, 13, 14, 15, 16, 17]).m_PointIds
      ≠ [1, 2, 3, 4, 5, 6, 7, 8]
    ∧ observe ((HexahedronCell.mk [1, 2, 3, 4, 5, 6, 7, 8]).SetCellPointsRange
        [10, 11, 12] 0 3)
      = Outcome.returns ⟨[10, 11, 12, 4, 5, 6, 7, 8]⟩
    ∧ observe ((HexahedronCell.mk [1, 2, 3, 4, 5, 6, 7, 8]).SetCellPointsRange
        [10, 11, 12] 0 3)
      ≠ Outcome.fails ErrorKind.PointCountMismatch := by
  refine ⟨rfl, by decide, by decide, rfl, by decide⟩

/-- No call of the sources is observed to fail with an error. -/
theorem observe_ne_fails {α : Type} (r : Option α) (kind : ErrorKind) :
    observe r ≠ Outcome.fails kind := by
  cases r <;> simp [observe]

/-- C14, amended: `SetCellPoints` checks no count and reports no error. On a
hexahedron (N = 8) and a line (N = 2): with a list of at least N identifiers,
`SetCellPoints(list)` returns and the cell holds the first N of them; with a
range of at most N identifiers, `SetCellPoints(first, last)` returns, the
first `last - first` slots hold the range and the other slots hold what they
held; with a shorter list or a longer range an array access is out of bounds
and the behaviour is undefined. -/
theorem C14_no_count_check (h : HexahedronCell) (hh : h.m_PointIds.length = 8)
    (l : LineCell) (hl : l.m_PointIds.length = 2)
    (ptList pre range post : List PointIdentifier) (kind : ErrorKind) :
    ((8 ≤ ptList.length →
        observe (h.SetCellPoints ptList) = Outcome.returns ⟨ptList.take 8⟩)
      ∧ (ptList.length < 8 → observe (h.SetCellPoints ptList) = Outcome.undefinedBehaviour)
      ∧ (range.length ≤ 8 →
        observe (h.SetCellPointsRange (pre ++ range ++ post) pre.length
            (pre.length + range.length))
          = Outcome.returns ⟨range ++ h.m_PointIds.drop range.length⟩)
      ∧ (8 < range.length →
        observe (h.SetCellPointsRange (pre ++ range ++ post) pre.length
            (pre.length + range.length))
          = Outcome.undefinedBehaviour)
      ∧ observe (h.SetCellPoints ptList) ≠ Outcome.fails kind
      ∧ observe (h.SetCellPointsRange (pre ++ range ++ post) pre.length
            (pre.length + range.length)) ≠ Outcome.fails kind)
    ∧ ((2 ≤ ptList.length →
        observe (l.SetCellPoints ptList) = Outcome.returns ⟨ptList.take 2⟩)
      ∧ (ptList.length < 2 → observe (l.SetCellPoints ptList) = Outcome.undefinedBehaviour)
      ∧ (range.length ≤ 2 →
        observe (l.SetCellPointsRange (pre ++ range ++ post) pre.length
            (pre.length + range.length))
          = Outcome.returns ⟨range ++ l.m_PointIds.drop range.length⟩)
      ∧ (2 < range.length →
        observe (l.SetCellPointsRange (pre ++ range ++ post) pre.length
            (pre.length + range.length))
          = Outcome.undefinedBehaviour)
      ∧ observe (l.SetCellPoints ptList) ≠ Outcome.fails kind
      ∧ observe (l.SetCellPointsRange (pre ++ range ++ post) pre.length
            (pre.length + range.length)) ≠ Outcome.fails kind) := by
  refine ⟨⟨?_, ?_, ?_, ?_, observe_ne_fails _ _, observe_ne_fails _ _⟩,
    ⟨?_, ?_, ?_, ?_, observe_ne_fails _ _, observe_ne_fails _ _⟩⟩
  · intro hge
    obtain ⟨m⟩ := h
    obtain ⟨b0, b1, b2, b3, b4, b5, b6, b7, rfl⟩ := list_eq_of_length_eight m hh
    obtain ⟨a0, a1, a2, a3, a4, a5, a6, a7, rest, rfl⟩ :=
      list_eq_of_eight_le_length ptList hge
    simp [HexahedronCell.SetCellPoints, HexahedronCell.NumberOfPoints, forLoop, readAt,
      writeAt, observe]
  · intro hlt
    cases hc : h.SetCellPoints ptList with
    | none => rfl
    | some c1 =>
      exfalso
      simp only [HexahedronCell.SetCellPoints] at hc
      cases hf : forLoop (fun i ids => (readAt ptList i).bind (writeAt ids i))
          HexahedronCell.NumberOfPoints 0 h.m_PointIds with
      | none => simp [hf] at hc
      | some ids1 =>
        have := copyLoop_bound ptList 7 0 h.m_PointIds ids1 hf
        omega
  · intro hle
    have := copyRange_fits (pre ++ range ++ post) range (h.m_PointIds.length + 1) pre.length
      (pre.length + range.length) [] h.m_PointIds
      (fun k hk => lookup_mid pre range post k hk) rfl (by omega) (by omega)
    simp only [List.length_nil, Int.ofNat_zero, Nat.cast_zero, List.nil_append] at this
    simp only [HexahedronCell.SetCellPointsRange, this, Option.map_some', observe]
  · intro hgt
    have := copyRange_overrun (pre ++ range ++ post) h.m_PointIds range
      (h.m_PointIds.length + 1) pre.length (pre.length + range.length) []
      (fun k hk => lookup_mid pre range post k hk) rfl (by omega)
    simp only [List.length_nil, Int.ofNat_zero, Nat.cast_zero, List.nil_append] at this
    simp only [HexahedronCell.SetCellPointsRange, this, Option.map_none', observe]
  · intro hge
    obtain ⟨m⟩ := l
    obtain ⟨b0, b1, rfl⟩ := list_eq_of_length_two m hl
    obtain ⟨a0, a1, rest, rfl⟩ := list_eq_of_two_le_length ptList hge
    simp [LineCell.SetCellPoints, LineCell.NumberOfPoints, forLoop, readAt, writeAt, observe]
  · intro hlt
    cases hc : l.SetCellPoints ptList with
    | none => rfl
    | some c1 =>
      exfalso
      simp only [LineCell.SetCellPoints] at hc
      cases hf : forLoop (fun i ids => (readAt ptList i).bind (writeAt ids i))
          LineCell.NumberOfPoints 0 l.m_PointIds with
      | none => simp [hf] at hc
      | some ids1 =>
        have := copyLoop_bound ptList 1 0 l.m_PointIds ids1 hf
        omega
  · intro hle
    have := copyRange_fits (pre ++ range ++ post) range (l.m_PointIds.length + 1) pre.length
      (pre.length + range.length) [] l.m_PointIds
      (fun k hk => lookup_mid pre range post k hk) rfl (by omega) (by omega)
    simp only [List.length_nil, Int.ofNat_zero, Nat.cast_zero, List.nil_append] at this
    simp only [LineCell.SetCellPointsRange, this, Option.map_some', observe]
  · intro hgt
    have := copyRange_overrun (pre ++ range ++ post) l.m_PointIds range
      (l.m_PointIds.length + 1) pre.length (pre.length + range.length) []
      (fun k hk => lookup_mid pre range post k hk) rfl (by omega)
    simp only [List.length_nil, Int.ofNat_zero, Nat.cast_zero, List.nil_append] at this
    simp only [LineCell.SetCellPointsRange, this, Option.map_none', observe]

/-- C14 amended, on the hexahedron 1..8 and the line 1, 2: a list of 9
identifiers, and the range 10, 11, 12 lying after one other word of memory. -/
theorem C14_no_count_check_witness :
    ((HexahedronCell.mk [1, 2, 3, 4, 5, 6, 7, 8]).m_PointIds.length = 8
      ∧ (LineCell.mk [1, 2]).m_PointIds.length = 2
      ∧ 8 ≤ [10, 11, 12, 13, 14, 15, 16, 17, 18].length
      ∧ [10, 11, 12].length ≤ 8 ∧ 2 < [10, 11, 12].length)
    ∧ observe ((HexahedronCell.mk [1, 2, 3, 4, 5, 6, 7, 8]).SetCellPoints
          [10, 11, 12, 13, 14, 15, 16, 17, 18])
        = Outcome.returns ⟨[10, 11, 12, 13, 14, 15, 16, 17, 18].take 8⟩
    ∧ observe ((HexahedronCell.mk [1, 2, 3, 4, 5, 6, 7, 8]).SetCellPointsRange
          ([50] ++ [10, 11, 12] ++ [60]) [50].length ([50].length + [10, 11, 12].length))
        = Outcome.returns
            ⟨[10, 11, 12] ++ (HexahedronCell.mk [1, 2, 3, 4, 5, 6, 7, 8]).m_PointIds.drop
              [10, 11, 12].length⟩
    ∧ observe ((LineCell.mk [1, 2]).SetCellPointsRange
          ([50] ++ [10, 11, 12] ++ [60]) [50].length ([50].length + [10, 11, 12].length))
        = Outcome.undefinedBehaviour :=
  ⟨⟨rfl, rfl, by decide, by decide, by decide⟩,
    (C14_no_count_check ⟨[1, 2, 3, 4, 5, 6, 7, 8]⟩ rfl ⟨[1, 2]⟩ rfl
      [10, 11, 12, 13, 14, 15, 16, 17, 18] [50] [10, 11, 12] [60]
      ErrorKind.PointCountMismatch).1.1 (by decide),
    (C14_no_count_check ⟨[1, 2, 3, 4, 5, 6, 7, 8]⟩ rfl ⟨[1, 2]⟩ rfl
      [10, 11, 12, 13, 14, 15, 16, 17, 18] [50] [10, 11, 12] [60]
      ErrorKind.PointCountMismatch).1.2.2.1 (by decide),
    (C14_no_count_check ⟨[1, 2, 3, 4, 5, 6, 7, 8]⟩ rfl ⟨[1, 2]⟩ rfl
      [10, 11, 12, 13, 14, 15, 16, 17, 18] [50] [10, 11, 12] [60]
      ErrorKind.PointCountMismatch).2.2.2.2.1 (by decide)⟩

/-- C15, refuted: on the hexahedron 10..17, `GetCellVertex(8)` reads
`m_PointIds[8]`, past the end of the array: the behaviour is undefined, and
the call does not fail with a range error. The same for `GetCellEdge(12)`
and `GetCellFace(6)`, which read past the end of the tables. -/
theorem C15_out_of_range_counterexample :
    observe ((HexahedronCell.mk [10, 11, 12, 13, 14, 15, 16, 17]).GetCellVertex 8)
      = Outcome.undefinedBehaviour
    ∧ observe ((HexahedronCell.mk [10, 11, 12, 13, 14, 15, 16, 17]).GetCellVertex 8)
      ≠ Outcome.fails ErrorKind.FeatureIndexOutOfRange
    ∧ observe ((HexahedronCell.mk [10, 11, 12, 13, 14, 15, 16, 17]).GetCellEdge 12)
      ≠ Outcome.fails ErrorKind.FeatureIndexOutOfRange
    ∧ observe ((HexahedronCell.mk [10, 11, 12, 13, 14, 15, 16, 17]).GetCellFace 6)
      ≠ Outcome.fails ErrorKind.FeatureIndexOutOfRange := by
  refine ⟨rfl, by decide, by decide, by decide⟩

/-- C15, amended: the extraction functions check no range and report no
error. For the hexahedron `GetCellVertex(k)` with `k >= 8`, `GetCellEdge(k)`
with `k >= 12`, `GetCellFace(k)` with `k >= 6`, `GetBoundaryFeature(d, k)` for
`d` in 0, 1, 2 with `k` at or above the feature count, and for the line
`GetCellVertex(k)` and `GetBoundaryFeature(0, k)` with `k >= 2`, read
`m_PointIds`, `m_Edges` or `m_Faces` out of bounds: the behaviour is
undefined. -/
theorem C15_no_range_check (h : HexahedronCell) (hh : h.m_PointIds.length = 8)
    (l : LineCell) (hl : l.m_PointIds.length = 2) (k : CellFeatureIdentifier)
    (d : Int) (kind : ErrorKind) :
    (8 ≤ k → observe (h.GetCellVertex k) = Outcome.undefinedBehaviour
        ∧ observe (h.GetBoundaryFeature 0 k) = Outcome.undefinedBehaviour)
    ∧ (12 ≤ k → observe (h.GetCellEdge k) = Outcome.undefinedBehaviour
        ∧ observe (h.GetBoundaryFeature 1 k) = Outcome.undefinedBehaviour)
    ∧ (6 ≤ k → observe (h.GetCellFace k) = Outcome.undefinedBehaviour
        ∧ observe (h.GetBoundaryFeature 2 k) = Outcome.undefinedBehaviour)
    ∧ (2 ≤ k → observe (l.GetCellVertex k) = Outcome.undefinedBehaviour
        ∧ observe (l.GetBoundaryFeature 0 k) = Outcome.undefinedBehaviour)
    ∧ (observe (h.GetCellVertex k) ≠ Outcome.fails kind
        ∧ observe (h.GetCellEdge k) ≠ Outcome.fails kind
        ∧ observe (h.GetCellFace k) ≠ Outcome.fails kind
        ∧ observe (h.GetBoundaryFeature d k) ≠ Outcome.fails kind
        ∧ observe (l.GetCellVertex k) ≠ Outcome.fails kind
        ∧ observe (l.GetBoundaryFeature d k) ≠ Outcome.fails kind) := by
  refine ⟨?_, ?_, ?_, ?_, observe_ne_fails _ _, observe_ne_fails _ _, observe_ne_fails _ _,
    observe_ne_fails _ _, observe_ne_fails _ _, observe_ne_fails _ _⟩
  · intro hk
    have e : h.GetCellVertex k = none := by
      have hk8 : h.m_PointIds.length ≤ k := hh ▸ hk
      have : h.m_PointIds[k]? = none := List.getElem?_eq_none hk8
      simp [HexahedronCell.GetCellVertex, this]
    simp [HexahedronCell.GetBoundaryFeature, e, observe]
  · intro hk
    have e : h.GetCellEdge k = none := by
      have : HexahedronCell.m_Edges[k]? = none :=
        List.getElem?_eq_none (by simpa [HexahedronCell.m_Edges] using hk)
      simp [HexahedronCell.GetCellEdge, LineCell.NumberOfPoints, forLoop, this]
    simp [HexahedronCell.GetBoundaryFeature, e, observe]
  · intro hk
    have e : h.GetCellFace k = none := by
      have : HexahedronCell.m_Faces[k]? = none :=
        List.getElem?_eq_none (by simpa [HexahedronCell.m_Faces] using hk)
      simp [HexahedronCell.GetCellFace, QuadrilateralCell.NumberOfPoints, forLoop, this]
    simp [HexahedronCell.GetBoundaryFeature, e, observe]
  · intro hk
    have e : l.GetCellVertex k = none := by
      have hk2 : l.m_PointIds.length ≤ k := hl ▸ hk
      have : l.m_PointIds[k]? = none := List.getElem?_eq_none hk2
      simp [LineCell.GetCellVertex, this]
    simp [LineCell.GetBoundaryFeature, e, observe]

/-- C15 amended, on the hexahedron 10..17 and the line 7, 9 at feature 12. -/
theorem C15_no_range_check_witness :
    ((HexahedronCell.mk [10, 11, 12, 13, 14, 15, 16, 17]).m_PointIds.length = 8
      ∧ (LineCell.mk [7, 9]).m_PointIds.length = 2 ∧ 8 ≤ 12 ∧ 12 ≤ 12 ∧ 6 ≤ 12 ∧ 2 ≤ 12)
    ∧ observe ((HexahedronCell.mk [10, 11, 12, 13, 14, 15, 16, 17]).GetCellVertex 12)
        = Outcome.undefinedBehaviour
    ∧ observe ((HexahedronCell.mk [10, 11, 12, 13, 14, 15, 16, 17]).GetCellEdge 12)
        = Outcome.undefinedBehaviour
    ∧ observe ((HexahedronCell.mk [10, 11, 12, 13, 14, 15, 16, 17]).GetCellFace 12)
        = Outcome.undefinedBehaviour
    ∧ observe ((LineCell.mk [7, 9]).GetCellVertex 12) = Outcome.undefinedBehaviour :=
  ⟨⟨rfl, rfl, by decide, by decide, by decide, by decide⟩,
    ((C15_no_range_check ⟨[10, 11, 12, 13, 14, 15, 16, 17]⟩ rfl ⟨[7, 9]⟩ rfl 12 0
      ErrorKind.FeatureIndexOutOfRange).1 (by decide)).1,
    ((C15_no_range_check ⟨[10, 11, 12, 13, 14, 15, 16, 17]⟩ rfl ⟨[7, 9]⟩ rfl 12 0
      ErrorKind.FeatureIndexOutOfRange).2.1 (by decide)).1,
    ((C15_no_range_check ⟨[10, 11, 12, 13, 14, 15, 16, 17]⟩ rfl ⟨[7, 9]⟩ rfl 12 0
      ErrorKind.FeatureIndexOutOfRange).2.2.1 (by decide)).1,
    ((C15_no_range_check ⟨[10, 11, 12, 13, 14, 15, 16, 17]⟩ rfl ⟨[7, 9]⟩ rfl 12 0
      ErrorKind.FeatureIndexOutOfRange).2.2.2.1 (by decide)).1⟩

/-! ## Fixed dimension -/

/-- C16: `GetCellDimension` is 3 for every hexahedron and 1 for every line
cell, whatever points the cell holds, also after any mutation of it. -/
theorem C16_fixed_dimension (h : HexahedronCell) (l : LineCell)
    (ptList mem : List PointIdentifier) (first last : Nat) (localId : Int)
    (ptId : PointIdentifier) :
    h.GetCellDimension = 3 ∧ l.GetCellDimension = 1
    ∧ (∀ h1, h.SetCellPoints ptList = some h1 ∨ h.SetCellPointsRange mem first last = some h1
        ∨ h.SetCellPoint localId ptId = some h1 → h1.GetCellDimension = 3)
    ∧ (∀ l1, l.SetCellPoints ptList = some l1 ∨ l.SetCellPointsRange mem first last = some l1
        ∨ l.SetCellPoint localId ptId = some l1 → l1.GetCellDimension = 1) :=
  ⟨rfl, rfl, fun _ _ => rfl, fun _ _ => rfl⟩

/-- C16, on the hexahedron 1..8 after `SetCellPoint(2, 99)` and the line
1, 2 after `SetCellPoints` of 7, 9. -/
theorem C16_fixed_dimension_witness :
    ((HexahedronCell.mk [1, 2, 3, 4, 5, 6, 7, 8]).SetCellPoint 2 99
        = some ⟨[1, 2, 99, 4, 5, 6, 7, 8]⟩
      ∧ (LineCell.mk [1, 2]).SetCellPoints [7, 9] = some ⟨[7, 9]⟩)
    ∧ (HexahedronCell.mk [1, 2, 99, 4, 5, 6, 7, 8]).GetCellDimension = 3
    ∧ (LineCell.mk [7, 9]).GetCellDimension = 1 :=
  ⟨⟨rfl, rfl⟩,
    (C16_fixed_dimension ⟨[1, 2, 3, 4, 5, 6, 7, 8]⟩ ⟨[1, 2]⟩ [7, 9] [] 0 0 2 99).2.2.1 _
      (Or.inr (Or.inr rfl)),
    (C16_fixed_dimension ⟨[1, 2, 3, 4, 5, 6, 7, 8]⟩ ⟨[1, 2]⟩ [7, 9] [] 0 0 2 99).2.2.2 _
      (Or.inl rfl)⟩

/-! ## In-range extraction stays in bounds -/

/-- C17: every entry of the edge table is a pair, and every entry of the face
table a quadruple, of local indices in `[0, 8)`; the slots of a new edge that
can be written are those in `[0, 2)` and of a new face those in `[0, 4)`; and
on an 8-slot hexahedron `GetCellVertex(v)`, `GetCellEdge(e)` and
`GetCellFace(f)` with `v < 8`, `e < 12`, `f < 6` are defined: no read of a
table or of the point sequence and no write of the sub-cell is out of
bounds. -/
theorem C17_in_range_extraction_in_bounds (h : HexahedronCell)
    (hh : h.m_PointIds.length = 8) (v e f : CellFeatureIdentifier)
    (i : Int) (p : PointIdentifier) :
    (HexahedronCell.m_Edges.length = 12
      ∧ ∀ row ∈ HexahedronCell.m_Edges, row.length = 2 ∧ ∀ k ∈ row, 0 ≤ k ∧ k < 8)
    ∧ (HexahedronCell.m_Faces.length = 6
      ∧ ∀ row ∈ HexahedronCell.m_Faces, row.length = 4 ∧ ∀ k ∈ row, 0 ≤ k ∧ k < 8)
    ∧ (((LineCell.New.SetCellPoint i p).isSome ↔ 0 ≤ i ∧ i < 2)
      ∧ ((QuadrilateralCell.New.SetCellPoint i p).isSome ↔ 0 ≤ i ∧ i < 4))
    ∧ (v < 8 → (h.GetCellVertex v).isSome)
    ∧ (e < 12 → (h.GetCellEdge e).isSome)
    ∧ (f < 6 → (h.GetCellFace f).isSome) := by
  refine ⟨⟨rfl, by decide⟩, ⟨rfl, by decide⟩, ⟨?_, ?_⟩, ?_, ?_, ?_⟩
  · simp only [LineCell.SetCellPoint, LineCell.New, LineCell.NumberOfPoints, writeAt,
      Option.isSome_map', List.length_replicate]
    constructor
    · intro hs
      split at hs
      · next hc => omega
      · simp at hs
    · intro hc
      have : 0 ≤ i ∧ i.toNat < 2 := by omega
      simp [this]
  · simp only [QuadrilateralCell.SetCellPoint, QuadrilateralCell.New,
      QuadrilateralCell.NumberOfPoints, writeAt, Option.isSome_map', List.length_replicate]
    constructor
    · intro hs
      split at hs
      · next hc => omega
      · simp at hs
    · intro hc
      have : 0 ≤ i ∧ i.toNat < 4 := by omega
      simp [this]
  · intro hv
    obtain ⟨r, hr⟩ := hexahedron_GetCellVertex_isSome h hh v hv
    simp [hr]
  · intro he
    obtain ⟨r, hr⟩ := hexahedron_GetCellEdge_isSome h hh e he
    simp [hr]
  · intro hf
    obtain ⟨r, hr⟩ := hexahedron_GetCellFace_isSome h hh f hf
    simp [hr]

/-- C17, on the hexahedron 10..17 at vertex 7, edge 11 and face 5. -/
theorem C17_in_range_extraction_in_bounds_witness :
    ((HexahedronCell.mk [10, 11, 12, 13, 14, 15, 16, 17]).m_PointIds.length = 8
      ∧ 7 < 8 ∧ 11 < 12 ∧ 5 < 6)
    ∧ ((HexahedronCell.mk [10, 11, 12, 13, 14, 15, 16, 17]).GetCellVertex 7).isSome
    ∧ ((HexahedronCell.mk [10, 11, 12, 13, 14, 15, 16, 17]).GetCellEdge 11).isSome
    ∧ ((HexahedronCell.mk [10, 11, 12, 13, 14, 15, 16, 17]).GetCellFace 5).isSome :=
  ⟨⟨rfl, by decide, by decide, by decide⟩,
    (C17_in_range_extraction_in_bounds ⟨[10, 11, 12, 13, 14, 15, 16, 17]⟩ rfl 7 11 5 0
      0).2.2.2.1 (by decide),
    (C17_in_range_extraction_in_bounds ⟨[10, 11, 12, 13, 14, 15, 16, 17]⟩ rfl 7 11 5 0
      0).2.2.2.2.1 (by decide),
    (C17_in_range_extraction_in_bounds ⟨[10, 11, 12, 13, 14, 15, 16, 17]⟩ rfl 7 11 5 0
      0).2.2.2.2.2 (by decide)⟩

/-! ## The two tables describe one cube -/

/-- C18: the 12 entries of the edge table join distinct indices and are
pairwise distinct as unordered pairs; every side of every face is, in one of
its two orientations, an entry of the edge table; and every entry of the edge
table is a side of exactly 2 of the 6 faces. -/
theorem C18_tables_describe_same_cube :
    HexahedronCell.edgePairs =
        [(0,1), (1,2), (3,2), (0,3), (4,5), (5,6), (7,6), (4,7), (0,4), (1,5), (3,7), (2,6)]
    ∧ (∀ p ∈ HexahedronCell.edgePairs, p.1 ≠ p.2)
    ∧ HexahedronCell.edgePairs.Pairwise (fun p q => p ≠ q ∧ p ≠ q.swap)
    ∧ (∀ row ∈ HexahedronCell.m_Faces, ∀ s ∈ HexahedronCell.directedSides row,
        s ∈ HexahedronCell.edgePairs ∨ s.swap ∈ HexahedronCell.edgePairs)
    ∧ (∀ p ∈ HexahedronCell.edgePairs,
        (HexahedronCell.m_Faces.filter fun row =>
          decide (p ∈ HexahedronCell.directedSides row
            ∨ p.swap ∈ HexahedronCell.directedSides row)).length = 2) := by
  refine ⟨by decide, by decide, by decide, by decide, by decide⟩

/-- C18, at face 3 and its side from 6 to 2, the reverse of edge entry 11. -/
theorem C18_tables_describe_same_cube_witness :
    ([3, 7, 6, 2] ∈ HexahedronCell.m_Faces
      ∧ ((6 : Int), (2 : Int)) ∈ HexahedronCell.directedSides [3, 7, 6, 2])
    ∧ (((6 : Int), (2 : Int)) ∈ HexahedronCell.edgePairs
      ∨ ((6 : Int), (2 : Int)).swap ∈ HexahedronCell.edgePairs) :=
  ⟨⟨by decide, by decide⟩,
    C18_tables_describe_same_cube.2.2.2.1 [3, 7, 6, 2] (by decide) (6, 2) (by decide)⟩

/-! ## The cost function of the optimizer test -/

/-- A list of length 9 is a list of 9 named entries. -/
theorem list_eq_of_length_nine {α : Type} (xs : List α) (h : xs.length = 9) :
    ∃ a0 a1 a2 a3 a4 a5 a6 a7 a8, xs = [a0, a1, a2, a3, a4, a5, a6, a7, a8] := by
  match xs, h with
  | [a0, a1, a2, a3, a4, a5, a6, a7, a8], _ =>
    exact ⟨a0, a1, a2, a3, a4, a5, a6, a7, a8, rfl⟩

/-- The vector that `GetValue` computes, entry by entry. -/
theorem CostFunction.GetValue_eq (c : CostFunction) (hm : c.m_Measure.length = 9)
    (a b : ℚ) :
    c.GetValue [a, b]
      = some (⟨[a, b],
          [(a - 3) + (b - 2), b - 2, (a - 3) + (b - 2),
            a - 3, 0, a - 3,
            (a - 3) + (b - 2), b - 2, (a - 3) + (b - 2)], c.m_Derivative⟩,
          [(a - 3) + (b - 2), b - 2, (a - 3) + (b - 2),
            a - 3, 0, a - 3,
            (a - 3) + (b - 2), b - 2, (a - 3) + (b - 2)]) := by
  obtain ⟨p, m, D⟩ := c
  obtain ⟨m0, m1, m2, m3, m4, m5, m6, m7, m8, rfl⟩ := list_eq_of_length_nine m hm
  simp [CostFunction.GetValue, CostFunction.XRange, CostFunction.YRange, forLoop, readAt,
    writeAt]

/-- C19: over the rationals, for every parameter pair `(a, b)` `GetValue`
returns the 9-entry vector whose entry at index `3*(y+1) + (x+1)`, for `x`, `y`
in -1, 0, 1, is `(a-3)*x^2 + (b-2)*y^2`; this vector is the zero vector if and
only if `a = 3` and `b = 2`. -/
theorem C19_cost_function_solution (c : CostFunction) (hm : c.m_Measure.length = 9)
    (a b : ℚ) :
    ∃ c1 m, c.GetValue [a, b] = some (c1, m) ∧ m.length = 9
      ∧ (∀ x y : Int, -1 ≤ x → x ≤ 1 → -1 ≤ y → y ≤ 1 →
          readAt m (3 * (y + 1) + (x + 1)) = some ((a - 3) * (x : ℚ) ^ 2 + (b - 2) * (y : ℚ) ^ 2))
      ∧ (m = List.replicate 9 0 ↔ a = 3 ∧ b = 2) := by
  refine ⟨_, _, CostFunction.GetValue_eq c hm a b, rfl, ?_, ?_⟩
  · intro x y hx1 hx2 hy1 hy2
    interval_cases x <;> interval_cases y <;> simp [readAt]
  · constructor
    · intro h
      simp only [List.replicate, List.cons.injEq, and_true] at h
      obtain ⟨-, hb, -, ha, -⟩ := h
      constructor <;> linarith
    · rintro ⟨rfl, rfl⟩
      simp [List.replicate]

/-- C19, on the new cost function at the parameters (3, 2) and at the
parameters (20, 10) where the test starts. -/
theorem C19_cost_function_solution_witness :
    CostFunction.New.m_Measure.length = 9
    ∧ (∃ c1, CostFunction.New.GetValue [3, 2] = some (c1, List.replicate 9 0))
    ∧ ∃ c1 m, CostFunction.New.GetValue [20, 10] = some (c1, m) ∧ m ≠ List.replicate 9 0 := by
  refine ⟨rfl, ?_, ?_⟩
  · obtain ⟨c1, m, h1, -, -, h4⟩ := C19_cost_function_solution CostFunction.New rfl 3 2
    exact ⟨c1, by rw [h1, h4.mpr ⟨rfl, rfl⟩]⟩
  · obtain ⟨c1, m, h1, -, -, h4⟩ := C19_cost_function_solution CostFunction.New rfl 20 10
    exact ⟨c1, m, h1, fun e => by
      have := (h4.mp e).1
      norm_num at this⟩

/-- The matrix that `GetDerivative` computes, row by row. -/
theorem CostFunction.GetDerivative_eq (c : CostFunction)
    (hD : c.m_Derivative.length = 9) (hrow : ∀ row ∈ c.m_Derivative, row.length = 2)
    (a b : ℚ) :
    c.GetDerivative [a, b]
      = some (⟨[a, b], c.m_Measure,
          [[2 * (-1) * (a - 3), 2 * (-1) * (b - 2)], [0, 2 * (-1) * (b - 2)],
            [2 * (a - 3), 2 * (-1) * (b - 2)],
            [2 * (-1) * (a - 3), 0], [0, 0], [2 * (a - 3), 0],
            [2 * (-1) * (a - 3), 2 * (b - 2)], [0, 2 * (b - 2)],
            [2 * (a - 3), 2 * (b - 2)]]⟩,
          [[2 * (-1) * (a - 3), 2 * (-1) * (b - 2)], [0, 2 * (-1) * (b - 2)],
            [2 * (a - 3), 2 * (-1) * (b - 2)],
            [2 * (-1) * (a - 3), 0], [0, 0], [2 * (a - 3), 0],
            [2 * (-1) * (a - 3), 2 * (b - 2)], [0, 2 * (b - 2)],
            [2 * (a - 3), 2 * (b - 2)]]) := by
  obtain ⟨p, m, D⟩ := c
  obtain ⟨r0, r1, r2, r3, r4, r5, r6, r7, r8, rfl⟩ := list_eq_of_length_nine D hD
  simp only [List.mem_cons, List.mem_singleton, forall_eq_or_imp, forall_eq,
    List.not_mem_nil, false_implies, implies_true, and_true] at hrow
  obtain ⟨h0, h1, h2, h3, h4, h5, h6, h7, h8⟩ := hrow
  obtain ⟨u0, v0, rfl⟩ := list_eq_of_length_two r0 h0
  obtain ⟨u1, v1, rfl⟩ := list_eq_of_length_two r1 h1
  obtain ⟨u2, v2, rfl⟩ := list_eq_of_length_two r2 h2
  obtain ⟨u3, v3, rfl⟩ := list_eq_of_length_two r3 h3
  obtain ⟨u4, v4, rfl⟩ := list_eq_of_length_two r4 h4
  obtain ⟨u5, v5, rfl⟩ := list_eq_of_length_two r5 h5
  obtain ⟨u6, v6, rfl⟩ := list_eq_of_length_two r6 h6
  obtain ⟨u7, v7, rfl⟩ := list_eq_of_length_two r7 h7
  obtain ⟨u8, v8, rfl⟩ := list_eq_of_length_two r8 h8
  simp [CostFunction.GetDerivative, CostFunction.XRange, CostFunction.YRange, forLoop, readAt,
    writeAt, CostFunction.writeAt2]

/-- C20, evaluated at the parameters (20, 10), where the test starts, and
the sample index 8 (`x = 1`, `y = 1`): `GetDerivative` returns the row
(34, 16), that is `(2*x*(a-3), 2*y*(b-2))`, whereas entry 8 of `GetValue` grows
by `t` when `a` grows by `t` and by `t` when `b` grows by `t`: its partial
derivatives with respect to `a` and `b` are `(x^2, y^2) = (1, 1)`. -/
theorem C20_GetDerivative_at_start :
    (∃ c1 D, CostFunction.New.GetDerivative [20, 10] = some (c1, D)
      ∧ readAt D 8 = some [34, 16])
    ∧ (∀ t : ℚ, ∃ c0 m0 c1 m1 c2 m2 e0 e1 e2,
        CostFunction.New.GetValue [20, 10] = some (c0, m0)
        ∧ CostFunction.New.GetValue [20 + t, 10] = some (c1, m1)
        ∧ CostFunction.New.GetValue [20, 10 + t] = some (c2, m2)
        ∧ readAt m0 8 = some e0 ∧ readAt m1 8 = some e1 ∧ readAt m2 8 = some e2
        ∧ e1 - e0 = t * 1 ∧ e2 - e0 = t * 1)
    ∧ ([34, 16] : List ℚ) ≠ [1, 1] := by
  refine ⟨⟨_, _, CostFunction.GetDerivative_eq CostFunction.New rfl (by decide) 20 10, ?_⟩,
    ?_, by decide⟩
  · norm_num [readAt, show Int.toNat 8 = 8 from rfl]
  · intro t
    refine ⟨_, _, _, _, _, _, 20 - 3 + (10 - 2), 20 + t - 3 + (10 - 2), 20 - 3 + (10 + t - 2),
      CostFunction.GetValue_eq CostFunction.New rfl 20 10,
      CostFunction.GetValue_eq CostFunction.New rfl (20 + t) 10,
      CostFunction.GetValue_eq CostFunction.New rfl 20 (10 + t), ?_, ?_, ?_, ?_, ?_⟩
    · simp [readAt]
    · simp [readAt]
    · simp [readAt]
    · ring
    · ring

end ITK
